import Mathlib

set_option maxHeartbeats 1000000

/-!
Shallow embedding of the aura agent core: the workflow engine
(src/agent/agent.graph.ts), the ticket lifecycle service
(src/tickets/tickets.ts) and the checkpoint store
(src/agent/agent.checkpointer.ts), together with proofs of the frozen
claims about them.

Conventions of the embedding:
- TypeScript strings stay String, numbers used as counters/indices become
  Nat (they only ever start at 0 and increase by 1 in the source) while
  token counts and JS array indices that may be negative become Int;
- ISO timestamps are opaque String values threaded in as a `now` argument
  (the source calls new Date().toISOString());
- the LangGraph state annotation becomes GraphState plus StateUpdate (the
  Partial state a node returns) plus applyUpdate (the channel reducers:
  messages append, tokenUsage sums, the rest replace);
- the reasoning engine (llm.invoke) becomes an oracle Nat -> LLMResponse
  consumed at an explicit call counter, so "calls the engine" is the
  observable statement that the counter advanced;
- thrown JS exceptions become Except.error; a call that throws before its
  database write leaves the store component unchanged, exactly as knex
  does in the source.
-/

/-- planStepStatusSchema of database.schemas.ts. -/
inductive PlanStepStatus where
  | pending
  | in_progress
  | completed
  | failed
  | skipped
deriving Repr, DecidableEq

/-- planStepSchema of database.schemas.ts. -/
structure PlanStep where
  id : String
  index : Nat
  title : String
  description : String
  status : PlanStepStatus
  startedAt : Option String
  completedAt : Option String
  output : Option String
  error : Option String
  retryCount : Nat
  maxRetries : Nat
deriving Repr, DecidableEq

/-- structuredPlanSchema of database.schemas.ts. -/
structure StructuredPlan where
  version : Nat
  summary : String
  steps : List PlanStep
  generatedAt : String
  approvedAt : Option String
  approvedBy : Option String
deriving Repr, DecidableEq

/-- tokenUsageSchema of database.schemas.ts; components are JS numbers. -/
structure TokenUsage where
  inputTokens : Int
  outputTokens : Int
  totalTokens : Int
deriving Repr, DecidableEq

/-- agentPhaseSchema of database.schemas.ts. -/
inductive AgentPhase where
  | planning
  | executing
  | reviewing
  | waiting
  | completed
deriving Repr, DecidableEq

/-- The waitingFor channel values of the graph state annotation. -/
inductive WaitKind where
  | approval
  | answer
deriving Repr, DecidableEq

/-- humanInputSchema of agent.schemas.ts.  In the source `approved` and
`answer` are optional; an absent `approved` is falsy in the JS condition
`if (state.humanInput.approved)` and therefore behaves as `false`, which
is how this embedding represents it. -/
inductive HumanInput where
  | approval (approved : Bool)
  | answer (text : String)
deriving Repr, DecidableEq

/-- A tool call requested by the reasoning engine (response.tool_calls);
args are opaque here. -/
structure ToolCall where
  id : String
  name : String
  args : String
deriving Repr, DecidableEq

/-- The message kinds of @langchain/core used by agent.graph.ts. -/
inductive Message where
  | system (content : String)
  | human (content : String)
  | ai (content : String) (toolCalls : List ToolCall)
  | tool (content : String) (toolCallId : String)
deriving Repr, DecidableEq

def Message.content : Message → String
  | Message.system c => c
  | Message.human c => c
  | Message.ai c _ => c
  | Message.tool c _ => c

/-- One reasoning-engine response: content (the source coerces non-string
content to a string), requested tool calls, and extracted token usage. -/
structure LLMResponse where
  content : String
  toolCalls : List ToolCall
  usage : TokenUsage
deriving Repr, DecidableEq

/-- The AgentStateAnnotation channels of agent.graph.ts. -/
structure GraphState where
  ticketId : String
  ticketTitle : String
  ticketDescription : String
  messages : List Message
  structuredPlan : Option StructuredPlan
  currentStepIndex : Nat
  phase : AgentPhase
  tokenUsage : TokenUsage
  waitingFor : Option WaitKind
  humanInput : Option HumanInput
  planApprovalRequired : Bool
  error : Option String
deriving Repr, DecidableEq

/-- A Partial GraphState as returned by a node.  A `none` field is absent
from the partial; `waitingFor`, `humanInput` and `error` are nullable
channels, hence the nested Option for an explicit null. -/
structure StateUpdate where
  messages : List Message
  structuredPlan : Option StructuredPlan
  currentStepIndex : Option Nat
  phase : Option AgentPhase
  tokenUsage : Option TokenUsage
  waitingFor : Option (Option WaitKind)
  humanInput : Option (Option HumanInput)
  error : Option (Option String)
deriving Repr, DecidableEq

/-- The empty partial `{}`. -/
def emptyUpdate : StateUpdate :=
  { messages := [], structuredPlan := none, currentStepIndex := none, phase := none,
    tokenUsage := none, waitingFor := none, humanInput := none, error := none }

def addUsage (a b : TokenUsage) : TokenUsage :=
  { inputTokens := a.inputTokens + b.inputTokens,
    outputTokens := a.outputTokens + b.outputTokens,
    totalTokens := a.totalTokens + b.totalTokens }

/-- The channel reducers of AgentStateAnnotation: messages appends,
tokenUsage sums, every other channel replaces when the update names it. -/
def applyUpdate (s : GraphState) (u : StateUpdate) : GraphState :=
  { s with
    messages := s.messages ++ u.messages,
    structuredPlan := match u.structuredPlan with
      | some p => some p
      | none => s.structuredPlan,
    currentStepIndex := u.currentStepIndex.getD s.currentStepIndex,
    phase := u.phase.getD s.phase,
    tokenUsage := match u.tokenUsage with
      | some t => addUsage s.tokenUsage t
      | none => s.tokenUsage,
    waitingFor := u.waitingFor.getD s.waitingFor,
    humanInput := u.humanInput.getD s.humanInput,
    error := u.error.getD s.error }

/-- createWaitNode of agent.graph.ts: a pure inspector of humanInput. -/
def waitNode (s : GraphState) : StateUpdate :=
  match s.humanInput with
  | some (HumanInput.approval approved) =>
    if approved then
      { emptyUpdate with
        phase := some AgentPhase.executing,
        waitingFor := some none,
        humanInput := some none,
        messages := [Message.human "Plan approved. Proceeding with execution."] }
    else
      { emptyUpdate with
        phase := some AgentPhase.completed,
        waitingFor := some none,
        humanInput := some none,
        error := some (some "Plan was rejected by user") }
  | some (HumanInput.answer text) =>
    { emptyUpdate with
      phase := some AgentPhase.executing,
      waitingFor := some none,
      humanInput := some none,
      messages := [Message.human ("User response: " ++ text)] }
  | none => emptyUpdate

/-- The graph nodes plus END; routing functions return one of these. -/
inductive NodeId where
  | planning
  | execute
  | review
  | wait
  | done
deriving Repr, DecidableEq

/-- routeAfterPlan of agent.graph.ts. -/
def routeAfterPlan (s : GraphState) : NodeId :=
  if s.phase = AgentPhase.completed then NodeId.done
  else if s.phase = AgentPhase.waiting then NodeId.wait
  else NodeId.execute

/-- routeAfterExecute of agent.graph.ts. -/
def routeAfterExecute (s : GraphState) : NodeId :=
  if s.phase = AgentPhase.waiting then NodeId.wait
  else if s.phase = AgentPhase.reviewing then NodeId.review
  else NodeId.execute

/-- routeAfterReview of agent.graph.ts. -/
def routeAfterReview (s : GraphState) : NodeId :=
  if s.phase = AgentPhase.completed then NodeId.done
  else if s.phase = AgentPhase.planning then NodeId.planning
  else NodeId.execute

/-- routeAfterWait of agent.graph.ts: still waiting means exit the graph. -/
def routeAfterWait (s : GraphState) : NodeId :=
  if s.phase = AgentPhase.completed then NodeId.done
  else if s.phase = AgentPhase.executing then NodeId.execute
  else NodeId.done

/-- routeFromStart of agent.graph.ts: entry routing on resume. -/
def routeFromStart (s : GraphState) : NodeId :=
  match s.structuredPlan with
  | some _ =>
    if s.phase = AgentPhase.waiting ∨ s.waitingFor.isSome then NodeId.wait
    else if s.phase = AgentPhase.executing ∨ s.phase = AgentPhase.reviewing then NodeId.execute
    else NodeId.planning
  | none => NodeId.planning

/-- ticketStatusSchema of database.schemas.ts. -/
inductive TicketStatus where
  | draft
  | pending_approval
  | approved
  | in_progress
  | awaiting_input
  | paused
  | completed
  | failed
  | cancelled
deriving Repr, DecidableEq

/-- VALID_TRANSITIONS of tickets.ts. -/
def VALID_TRANSITIONS : TicketStatus → List TicketStatus
  | TicketStatus.draft => [TicketStatus.pending_approval, TicketStatus.cancelled]
  | TicketStatus.pending_approval =>
      [TicketStatus.approved, TicketStatus.draft, TicketStatus.cancelled]
  | TicketStatus.approved => [TicketStatus.in_progress, TicketStatus.cancelled]
  | TicketStatus.in_progress =>
      [TicketStatus.awaiting_input, TicketStatus.paused, TicketStatus.completed,
       TicketStatus.failed, TicketStatus.cancelled]
  | TicketStatus.awaiting_input =>
      [TicketStatus.in_progress, TicketStatus.paused, TicketStatus.cancelled]
  | TicketStatus.paused => [TicketStatus.in_progress, TicketStatus.cancelled]
  | TicketStatus.completed => []
  | TicketStatus.failed => [TicketStatus.draft]
  | TicketStatus.cancelled => [TicketStatus.draft]

/-- The Ticket entity (rowToTicket of tickets.ts).  Payloads whose inner
structure no claim touches (pendingApproval, pendingQuestion, commits)
stay opaque Strings. -/
structure Ticket where
  id : String
  title : String
  description : String
  status : TicketStatus
  priority : String
  createdAt : String
  updatedAt : String
  resolvedAt : Option String
  structuredPlan : Option StructuredPlan
  currentTurn : Nat
  maxTurns : Nat
  tokenUsage : TokenUsage
  pendingApproval : Option String
  pendingQuestion : Option String
  workingBranch : Option String
  commits : List String
deriving Repr, DecidableEq

/-- The errors tickets.ts throws that the claims mention. -/
inductive TicketErr where
  | notFound (id : String)
  | invalidTransition (fromStatus toStatus : TicketStatus)
  | noPlan (id : String)
deriving Repr, DecidableEq

/-- A Partial PlanStep as passed to updatePlanStep.  An outer `none`
means the field is absent from the partial; present fields replace on
spread merge `\x7b...step, ...update\x7d`. -/
structure StepPatch where
  status : Option PlanStepStatus
  startedAt : Option (Option String)
  completedAt : Option (Option String)
  output : Option (Option String)
  error : Option (Option String)
  retryCount : Option Nat
deriving Repr, DecidableEq

def emptyPatch : StepPatch :=
  { status := none, startedAt := none, completedAt := none, output := none,
    error := none, retryCount := none }

/-- Spread merge of a Partial PlanStep into a PlanStep. -/
def mergeStep (s : PlanStep) (p : StepPatch) : PlanStep :=
  { s with
    status := p.status.getD s.status,
    startedAt := p.startedAt.getD s.startedAt,
    completedAt := p.completedAt.getD s.completedAt,
    output := p.output.getD s.output,
    error := p.error.getD s.error,
    retryCount := p.retryCount.getD s.retryCount }

/-- steps.map((step, idx) => idx === stepIndex ? merge : step) of
updatePlanStep, with the running JS index made explicit; stepIndex is a
JS number, hence Int. -/
def updateStepsFrom (patch : StepPatch) (stepIndex : Int) : List PlanStep → Nat → List PlanStep
  | [], _ => []
  | s :: rest, i =>
    (if (i : Int) = stepIndex then mergeStep s patch else s)
      :: updateStepsFrom patch stepIndex rest (i + 1)

def updateStepsAt (steps : List PlanStep) (stepIndex : Int) (patch : StepPatch) : List PlanStep :=
  updateStepsFrom patch stepIndex steps 0

/-- transitionStatus of tickets.ts on the ticket value: throw
InvalidStatusTransitionError (carrying from/to) unless the target is in
the table; stamp resolved_at exactly for completed/failed/cancelled. -/
def transitionStatus (t : Ticket) (newStatus : TicketStatus) (now : String) :
    Except TicketErr Ticket :=
  if (VALID_TRANSITIONS t.status).contains newStatus then
    Except.ok
      { t with
        status := newStatus,
        updatedAt := now,
        resolvedAt :=
          if newStatus = TicketStatus.completed ∨ newStatus = TicketStatus.failed
              ∨ newStatus = TicketStatus.cancelled then
            some now
          else
            t.resolvedAt }
  else
    Except.error (TicketErr.invalidTransition t.status newStatus)

/-- A ticket store keyed by id (the tickets table). -/
abbrev TicketDb := List (String × Ticket)

def dbGet (db : TicketDb) (id : String) : Option Ticket :=
  match db.find? (fun p => p.1 = id) with
  | some p => some p.2
  | none => none

def dbSet (db : TicketDb) (id : String) (t : Ticket) : TicketDb :=
  db.map (fun p => if p.1 = id then (p.1, t) else p)

/-- transitionStatus at the store level, returning the thrown error or
the updated ticket together with the store after the call.  The source
throws before any update statement, so a throw leaves the store as it
was. -/
def transitionStatusCall (db : TicketDb) (id : String) (newStatus : TicketStatus)
    (now : String) : Except TicketErr Ticket × TicketDb :=
  match dbGet db id with
  | none => (Except.error (TicketErr.notFound id), db)
  | some t =>
    match transitionStatus t newStatus now with
    | Except.error e => (Except.error e, db)
    | Except.ok t2 => (Except.ok t2, dbSet db id t2)

/-- incrementTurn of tickets.ts: add 1 to current_turn and sum the
reported token usage (when given) into the stored totals. -/
def incrementTurn (t : Ticket) (usage : Option TokenUsage) (now : String) : Ticket :=
  { t with
    currentTurn := t.currentTurn + 1,
    tokenUsage := match usage with
      | some u => addUsage t.tokenUsage u
      | none => t.tokenUsage,
    updatedAt := now }

/-- updatePlanStep of tickets.ts on the ticket value: throw NoPlanError
when the ticket has no structured plan, otherwise merge the partial into
the step at the given index only. -/
def updatePlanStepT (t : Ticket) (stepIndex : Int) (patch : StepPatch) (now : String) :
    Except TicketErr Ticket :=
  match t.structuredPlan with
  | none => Except.error (TicketErr.noPlan t.id)
  | some plan =>
    Except.ok
      { t with
        structuredPlan := some { plan with steps := updateStepsAt plan.steps stepIndex patch },
        updatedAt := now }

/-- setStructuredPlan of tickets.ts on the ticket value. -/
def setStructuredPlanT (t : Ticket) (plan : StructuredPlan) (now : String) : Ticket :=
  { t with structuredPlan := some plan, updatedAt := now }

/-- approvePlan of tickets.ts on the ticket value. -/
def approvePlanT (t : Ticket) (approvedBy : String) (now : String) : Except TicketErr Ticket :=
  match t.structuredPlan with
  | none => Except.error (TicketErr.noPlan t.id)
  | some plan =>
    Except.ok
      { t with
        structuredPlan := some { plan with approvedAt := some now, approvedBy := some approvedBy },
        status := TicketStatus.approved,
        updatedAt := now }

/-- The TicketService mutations of one existing ticket (all the writers
other than create/delete).  Each constructor carries the arguments the
source method takes; `now` is the timestamp the method reads from the
clock. -/
inductive TicketOp where
  | transition (target : TicketStatus) (now : String)
  | increment (usage : Option TokenUsage) (now : String)
  | updateStep (stepIndex : Int) (patch : StepPatch) (now : String)
  | setPlan (plan : StructuredPlan) (now : String)
  | approve (approvedBy : String) (now : String)
  | requestApproval (approval : String) (now : String)
  | grantApproval (now : String)
  | denyApproval (now : String)
  | askQuestion (question : String) (now : String)
  | answerQuestion (now : String)
  | addCommit (c : String) (now : String)
  | setBranch (branch : String) (now : String)
  | updateFields (title description priority : Option String) (maxTurns : Option Nat) (now : String)
deriving Repr, DecidableEq

/-- Apply one service mutation to a ticket; a call that throws performs
no write, so the ticket is returned unchanged (every throw in the source
happens before the update statement). -/
def applyOp (t : Ticket) : TicketOp → Ticket
  | TicketOp.transition target now =>
    match transitionStatus t target now with
    | Except.ok t2 => t2
    | Except.error _ => t
  | TicketOp.increment usage now => incrementTurn t usage now
  | TicketOp.updateStep stepIndex patch now =>
    match updatePlanStepT t stepIndex patch now with
    | Except.ok t2 => t2
    | Except.error _ => t
  | TicketOp.setPlan plan now => setStructuredPlanT t plan now
  | TicketOp.approve approvedBy now =>
    match approvePlanT t approvedBy now with
    | Except.ok t2 => t2
    | Except.error _ => t
  | TicketOp.requestApproval approval now =>
    { t with
        pendingApproval := some approval, status := TicketStatus.awaiting_input,
        updatedAt := now }
  | TicketOp.grantApproval now =>
    match t.pendingApproval with
    | none => t
    | some _ =>
      { t with pendingApproval := none, status := TicketStatus.in_progress, updatedAt := now }
  | TicketOp.denyApproval now =>
    match t.pendingApproval with
    | none => t
    | some _ =>
      { t with pendingApproval := none, status := TicketStatus.in_progress, updatedAt := now }
  | TicketOp.askQuestion question now =>
    { t with
        pendingQuestion := some question, status := TicketStatus.awaiting_input,
        updatedAt := now }
  | TicketOp.answerQuestion now =>
    match t.pendingQuestion with
    | none => t
    | some _ =>
      { t with pendingQuestion := none, status := TicketStatus.in_progress, updatedAt := now }
  | TicketOp.addCommit c now =>
    { t with commits := t.commits ++ [c], updatedAt := now }
  | TicketOp.setBranch branch now =>
    { t with workingBranch := some branch, updatedAt := now }
  | TicketOp.updateFields title description priority maxTurns now =>
    { t with
      title := title.getD t.title,
      description := description.getD t.description,
      priority := priority.getD t.priority,
      maxTurns := maxTurns.getD t.maxTurns,
      updatedAt := now }

/-- JS String.prototype.includes as used by the source (substring
occurrence). -/
def subOccurs (pat : List Char) : List Char → Bool
  | [] => pat.isEmpty
  | c :: rest => pat.isPrefixOf (c :: rest) || subOccurs pat rest

def strHasSub (hay pat : String) : Bool :=
  subOccurs pat.data hay.data

/-- A JSON value as produced by JSON.parse.  Numbers keep their raw text:
no claim ever reads a numeric value out of a parsed plan. -/
inductive Json where
  | null
  | bool (b : Bool)
  | num (raw : String)
  | str (s : String)
  | arr (items : List Json)
  | obj (fields : List (String × Json))

def isWsChar (c : Char) : Bool :=
  c = ' ' ∨ c = '\t' ∨ c = '\n' ∨ c = '\r'

def skipWs : List Char → List Char
  | [] => []
  | c :: cs => if isWsChar c then skipWs cs else c :: cs

def isDigitCh (c : Char) : Bool :=
  '0' ≤ c ∧ c ≤ '9'

def isHexCh (c : Char) : Bool :=
  isDigitCh c ∨ ('a' ≤ c ∧ c ≤ 'f') ∨ ('A' ≤ c ∧ c ≤ 'F')

def hexVal (c : Char) : Nat :=
  if isDigitCh c then c.toNat - 48
  else if 'a' ≤ c ∧ c ≤ 'f' then c.toNat - 87
  else c.toNat - 55

/-- Body of a JSON string literal, after the opening quote; fuel-indexed
(fuel at least the remaining input length always suffices). -/
def parseStringBody : Nat → List Char → List Char → Option (String × List Char)
  | 0, _, _ => none
  | _ + 1, [], _ => none
  | f + 1, c :: rest, acc =>
    if c = '"' then some (String.mk acc.reverse, rest)
    else if c = '\\' then
      match rest with
      | [] => none
      | e :: rest2 =>
        if e = '"' ∨ e = '\\' ∨ e = '/' then parseStringBody f rest2 (e :: acc)
        else if e = 'n' then parseStringBody f rest2 ('\n' :: acc)
        else if e = 't' then parseStringBody f rest2 ('\t' :: acc)
        else if e = 'r' then parseStringBody f rest2 ('\r' :: acc)
        else if e = 'b' then parseStringBody f rest2 (Char.ofNat 8 :: acc)
        else if e = 'f' then parseStringBody f rest2 (Char.ofNat 12 :: acc)
        else if e = 'u' then
          match rest2 with
          | a :: b :: c2 :: d :: rest3 =>
            if isHexCh a ∧ isHexCh b ∧ isHexCh c2 ∧ isHexCh d then
              parseStringBody f rest3
                (Char.ofNat (((hexVal a * 16 + hexVal b) * 16 + hexVal c2) * 16 + hexVal d) :: acc)
            else none
          | _ => none
        else none
    else parseStringBody f rest (c :: acc)

def spanDigits : List Char → List Char × List Char
  | [] => ([], [])
  | c :: cs =>
    if isDigitCh c then
      let r := spanDigits cs
      (c :: r.1, r.2)
    else ([], c :: cs)

/-- A JSON number (sign, integer part without leading zeros, optional
fraction and exponent); returns its raw characters and the rest. -/
def parseNumRaw (cs : List Char) : Option (List Char × List Char) :=
  let signPart : List Char × List Char :=
    match cs with
    | '-' :: r => (['-'], r)
    | _ => ([], cs)
  match signPart.2 with
  | [] => none
  | c :: _ =>
    if ¬ isDigitCh c then none
    else
      let intPart := spanDigits signPart.2
      if c = '0' ∧ intPart.1.length > 1 then none
      else
        let fracStep : Option (List Char × List Char) :=
          match intPart.2 with
          | '.' :: r =>
            let d := spanDigits r
            if d.1.isEmpty then none else some ('.' :: d.1, d.2)
          | _ => some ([], intPart.2)
        match fracStep with
        | none => none
        | some fracPart =>
          let expStep : Option (List Char × List Char) :=
            match fracPart.2 with
            | 'e' :: r =>
              let signExp : List Char × List Char :=
                match r with
                | '+' :: r2 => (['e', '+'], r2)
                | '-' :: r2 => (['e', '-'], r2)
                | _ => (['e'], r)
              let d := spanDigits signExp.2
              if d.1.isEmpty then none else some (signExp.1 ++ d.1, d.2)
            | 'E' :: r =>
              let signExp : List Char × List Char :=
                match r with
                | '+' :: r2 => (['E', '+'], r2)
                | '-' :: r2 => (['E', '-'], r2)
                | _ => (['E'], r)
              let d := spanDigits signExp.2
              if d.1.isEmpty then none else some (signExp.1 ++ d.1, d.2)
            | _ => some ([], fracPart.2)
          match expStep with
          | none => none
          | some expPart => some (signPart.1 ++ intPart.1 ++ fracPart.1 ++ expPart.1, expPart.2)

mutual

def parseVal : Nat → List Char → Option (Json × List Char)
  | 0, _ => none
  | f + 1, cs =>
    match skipWs cs with
    | [] => none
    | c :: rest =>
      if c = '"' then
        match parseStringBody f rest [] with
        | some (s, rest2) => some (Json.str s, rest2)
        | none => none
      else if c = '{' then parseObjBody f rest
      else if c = '[' then parseArrBody f rest
      else if c = 't' then
        match rest with
        | 'r' :: 'u' :: 'e' :: rest2 => some (Json.bool true, rest2)
        | _ => none
      else if c = 'f' then
        match rest with
        | 'a' :: 'l' :: 's' :: 'e' :: rest2 => some (Json.bool false, rest2)
        | _ => none
      else if c = 'n' then
        match rest with
        | 'u' :: 'l' :: 'l' :: rest2 => some (Json.null, rest2)
        | _ => none
      else if c = '-' ∨ isDigitCh c then
        match parseNumRaw (c :: rest) with
        | some (raw, rest2) => some (Json.num (String.mk raw), rest2)
        | none => none
      else none

def parseObjBody : Nat → List Char → Option (Json × List Char)
  | 0, _ => none
  | f + 1, cs =>
    match skipWs cs with
    | '}' :: rest => some (Json.obj [], rest)
    | cs2 => parseMembers f cs2 []

def parseMembers : Nat → List Char → List (String × Json) → Option (Json × List Char)
  | 0, _, _ => none
  | f + 1, cs, acc =>
    match cs with
    | '"' :: rest =>
      match parseStringBody f rest [] with
      | some (key, rest2) =>
        match skipWs rest2 with
        | ':' :: rest3 =>
          match parseVal f rest3 with
          | some (v, rest4) =>
            match skipWs rest4 with
            | ',' :: rest5 => parseMembers f (skipWs rest5) ((key, v) :: acc)
            | '}' :: rest5 => some (Json.obj ((key, v) :: acc).reverse, rest5)
            | _ => none
          | none => none
        | _ => none
      | none => none
    | _ => none

def parseArrBody : Nat → List Char → Option (Json × List Char)
  | 0, _ => none
  | f + 1, cs =>
    match skipWs cs with
    | ']' :: rest => some (Json.arr [], rest)
    | cs2 => parseItems f cs2 []

def parseItems : Nat → List Char → List Json → Option (Json × List Char)
  | 0, _, _ => none
  | f + 1, cs, acc =>
    match parseVal f cs with
    | some (v, rest) =>
      match skipWs rest with
      | ',' :: rest2 => parseItems f rest2 (v :: acc)
      | ']' :: rest2 => some (Json.arr (v :: acc).reverse, rest2)
      | _ => none
    | none => none

end

/-- JSON.parse: parse one value and require only whitespace after it.
The fuel is generous; every recursive level consumes input, so it never
runs out on the inputs the theorems evaluate. -/
def jsonParse (s : String) : Option Json :=
  match parseVal (4 * s.length + 16) s.data with
  | some (j, rest) => if (skipWs rest).isEmpty then some j else none
  | none => none

/-- Property access on a parsed value; JSON.parse keeps the last of
duplicate keys. -/
def getField (j : Json) (key : String) : Option Json :=
  match j with
  | Json.obj fields =>
    match fields.reverse.find? (fun p => p.1 = key) with
    | some p => some p.2
    | none => none
  | _ => none

/-- A string-valued property.  The source stores whatever value sits
there without validating it; no claim observes a non-string value, which
this embedding records as "". -/
def jsFieldString (j : Json) (key : String) : String :=
  match getField j key with
  | some (Json.str s) => s
  | _ => ""

def idxOfFirst (cs : List Char) (c : Char) : Option Nat :=
  cs.findIdx? (fun x => x = c)

def idxOfLast (cs : List Char) (c : Char) : Option Nat :=
  match cs.reverse.findIdx? (fun x => x = c) with
  | some k => some (cs.length - 1 - k)
  | none => none

/-- planContent.match of createPlanNode: the greedy regex takes the first
opening brace through the last closing brace, provided the close comes
after the open. -/
def jsonMatch (s : String) : Option String :=
  match idxOfFirst s.data '{', idxOfLast s.data '}' with
  | some i, some j =>
    if i < j then some (String.mk ((s.data.drop i).take (j - i + 1)))
    else none
  | _, _ => none

/-- The plan prompt of createPlanNode, persisted into the message
history. -/
def planPromptText (title description : String) : String :=
  "You are working on ticket: \"" ++ title ++ "\"\n\nDescription:\n" ++ description ++
  "\n\nCreate a detailed plan to accomplish this task. You MUST respond with valid JSON in this exact format:\n\x7b\n  \"summary\": \"Brief summary of the approach\",\n  \"steps\": [\n    \x7b\n      \"title\": \"Short title for step 1\",\n      \"description\": \"Detailed description of what this step accomplishes\"\n    \x7d,\n    \x7b\n      \"title\": \"Short title for step 2\",\n      \"description\": \"Detailed description of what this step accomplishes\"\n    \x7d\n  ]\n\x7d\n\nRequirements:\n- Each step should be specific and actionable\n- Steps should be in logical order\n- Provide 3-10 steps depending on task complexity\n- Respond ONLY with the JSON, no other text"

/-- parsed.steps.map of createPlanNode: stable indices, ids, all steps
pending.  (The source draws ids from crypto.randomUUID(); ids are opaque,
so the embedding derives them from the index.) -/
def buildSteps (items : List Json) : List PlanStep :=
  items.enum.map (fun p =>
    { id := "step-" ++ toString p.1,
      index := p.1,
      title := jsFieldString p.2 "title",
      description := jsFieldString p.2 "description",
      status := PlanStepStatus.pending,
      startedAt := none, completedAt := none, output := none, error := none,
      retryCount := 0, maxRetries := 3 })

/-- The reasoning engine as an oracle of the call counter. -/
def Oracle := Nat → LLMResponse

/-- One tool of the DynamicStructuredTool list: a name and an invoke that
returns output or throws. -/
structure ToolSpec where
  name : String
  impl : String → Except String String

/-- The world a node invocation sees and affects: the graph state, the
ticket's stored structured plan (what ticketService.updatePlanStep and
setStructuredPlan write), and the number of reasoning-engine calls made
so far. -/
structure World where
  state : GraphState
  dbPlan : Option StructuredPlan
  llmCalls : Nat
deriving Repr, DecidableEq

/-- What one node invocation produces: its Partial state, the stored plan
after its service calls, and the new call counter. -/
structure NodeOut where
  update : StateUpdate
  dbPlan : Option StructuredPlan
  llmCalls : Nat
deriving Repr, DecidableEq

/-- createPlanNode of agent.graph.ts.  An Except.error is a thrown JS
exception escaping the node (JSON.parse on non-JSON, or .map on a missing
steps array); the graceful no-match branch returns phase completed with
the parse error recorded. -/
def planNode (oracle : Oracle) (now : String) (w : World) : Except String NodeOut :=
  let response := oracle w.llmCalls
  let calls := w.llmCalls + 1
  let pp := planPromptText w.state.ticketTitle w.state.ticketDescription
  match jsonMatch response.content with
  | none =>
    Except.ok
      { update :=
          { emptyUpdate with
              messages := [Message.human pp, Message.ai response.content response.toolCalls],
              error := some (some "Failed to parse plan: No valid JSON found in response"),
              phase := some AgentPhase.completed,
              tokenUsage := some response.usage },
        dbPlan := w.dbPlan,
        llmCalls := calls }
  | some matched =>
    match jsonParse matched with
    | none => Except.error "SyntaxError: Unexpected token in JSON"
    | some parsed =>
      match getField parsed "steps" with
      | some (Json.arr items) =>
        let steps := buildSteps items
        let plan : StructuredPlan :=
          { version := 1, summary := jsFieldString parsed "summary", steps := steps,
            generatedAt := now, approvedAt := none, approvedBy := none }
        Except.ok
          { update :=
              { emptyUpdate with
                  messages := [Message.human pp, Message.ai response.content response.toolCalls],
                  structuredPlan := some plan,
                  currentStepIndex := some 0,
                  phase := some (if w.state.planApprovalRequired then AgentPhase.waiting
                    else AgentPhase.executing),
                  waitingFor := some (if w.state.planApprovalRequired then some WaitKind.approval
                    else none),
                  tokenUsage := some response.usage },
            dbPlan := some plan,
            llmCalls := calls }
      | _ => Except.error "TypeError: parsed.steps.map is not a function"

/-- The tool-call loop body of createExecuteNode: look the tool up by
name; if found, invoke it and turn its result or its caught error into a
ToolMessage; an unknown name produces nothing. -/
def runToolCall (tools : List ToolSpec) (tc : ToolCall) : Option Message :=
  match tools.find? (fun t => t.name = tc.name) with
  | none => none
  | some tool =>
    match tool.impl tc.args with
    | Except.ok result => some (Message.tool result tc.id)
    | Except.error e => some (Message.tool ("Error: " ++ e) tc.id)

def planSummaryText (plan : StructuredPlan) : String :=
  String.intercalate "\n" (plan.steps.map (fun s => toString (s.index + 1) ++ ". " ++ s.title))

def completedStepsText (plan : StructuredPlan) : String :=
  String.intercalate "\n"
    ((plan.steps.filter (fun s => s.status = PlanStepStatus.completed)).map
      (fun s => toString (s.index + 1) ++ ". " ++ s.title ++ ": " ++ s.output.getD "Done"))

/-- The execute prompt of createExecuteNode. -/
def executePromptText (plan : StructuredPlan) (idx : Nat) (currentStep : PlanStep) : String :=
  let completedSteps := completedStepsText plan
  "Continue executing the plan. You are on Step " ++ toString (idx + 1) ++ " of " ++
  toString plan.steps.length ++ ".\n\nCurrent step: " ++ currentStep.title ++ "\n" ++
  currentStep.description ++ "\n\nFull plan:\n" ++ planSummaryText plan ++ "\n\n" ++
  (if completedSteps = "" then "" else "Completed steps:\n" ++ completedSteps) ++
  "\n\nExecute the current step using the available tools. After completing the step, briefly describe what you did."

/-- The "fresh execution" check of createExecuteNode: push the execute
prompt unless the last message already continues an execution. -/
def executePromptMsgs (s : GraphState) (plan : StructuredPlan) (currentStep : PlanStep) :
    List Message :=
  let ep := executePromptText plan s.currentStepIndex currentStep
  let lastContent :=
    match s.messages.getLast? with
    | some m => m.content
    | none => ""
  if s.messages.isEmpty || !(strHasSub lastContent "Continue executing") then
    [Message.human ep]
  else []

/-- ticketService.updatePlanStep as seen from the engine: it throws
NoPlanError when the stored ticket has no structured plan, else merges
the partial into the step at that index of the stored plan. -/
def markDb (dbPlan : Option StructuredPlan) (idx : Nat) (patch : StepPatch) :
    Except String (Option StructuredPlan) :=
  match dbPlan with
  | none => Except.error "NoPlanError"
  | some p => Except.ok (some { p with steps := updateStepsAt p.steps (idx : Int) patch })

/-- createExecuteNode of agent.graph.ts. -/
def executeNode (oracle : Oracle) (tools : List ToolSpec) (now : String) (w : World) :
    Except String NodeOut :=
  match w.state.structuredPlan with
  | none =>
    Except.ok
      { update :=
          { emptyUpdate with
              error := some (some "No structured plan available"),
              phase := some AgentPhase.completed },
        dbPlan := w.dbPlan, llmCalls := w.llmCalls }
  | some plan =>
    match plan.steps.get? w.state.currentStepIndex with
    | none =>
      Except.ok
        { update :=
            { emptyUpdate with
                error := some (some ("Invalid step index: " ++ toString w.state.currentStepIndex)),
                phase := some AgentPhase.completed },
          dbPlan := w.dbPlan, llmCalls := w.llmCalls }
    | some currentStep =>
      let promptMsgs := executePromptMsgs w.state plan currentStep
      match
        (if currentStep.status = PlanStepStatus.pending then
          markDb w.dbPlan w.state.currentStepIndex
            { emptyPatch with
                status := some PlanStepStatus.in_progress, startedAt := some (some now) }
        else Except.ok w.dbPlan) with
      | Except.error e => Except.error e
      | Except.ok db1 =>
        let response := oracle w.llmCalls
        let calls := w.llmCalls + 1
        if response.toolCalls.isEmpty then
          let stepOutput := response.content
          match
            markDb db1 w.state.currentStepIndex
              { emptyPatch with
                  status := some PlanStepStatus.completed,
                  completedAt := some (some now), output := some (some stepOutput) } with
          | Except.error e => Except.error e
          | Except.ok db2 =>
            Except.ok
              { update :=
                  { emptyUpdate with
                      messages := promptMsgs ++ [Message.ai response.content response.toolCalls],
                      currentStepIndex := some (w.state.currentStepIndex + 1),
                      tokenUsage := some response.usage,
                      phase := some AgentPhase.reviewing },
                dbPlan := db2, llmCalls := calls }
        else
          Except.ok
            { update :=
                { emptyUpdate with
                    messages := promptMsgs ++ [Message.ai response.content response.toolCalls]
                      ++ response.toolCalls.filterMap (runToolCall tools),
                    tokenUsage := some response.usage,
                    phase := some AgentPhase.executing },
              dbPlan := db1, llmCalls := calls }

def allStepsText (plan : StructuredPlan) : String :=
  String.intercalate "\n"
    (plan.steps.map (fun s => toString (s.index + 1) ++ ". " ++ s.title ++ ": " ++
      s.output.getD "Done"))

/-- The review prompt of createReviewNode. -/
def reviewPromptText (plan : StructuredPlan) : String :=
  "All steps have been completed. Review the work done:\n\nPlan Summary: " ++ plan.summary ++
  "\n\nCompleted steps:\n" ++ allStepsText plan ++
  "\n\nVerify that the task has been completed successfully. If everything looks good, respond with \"TASK_COMPLETE\".\nIf there are issues or more work needed, explain what needs to be done."

/-- createReviewNode of agent.graph.ts. -/
def reviewNode (oracle : Oracle) (w : World) : Except String NodeOut :=
  match w.state.structuredPlan with
  | none =>
    Except.ok
      { update :=
          { emptyUpdate with
              error := some (some "No structured plan available for review"),
              phase := some AgentPhase.completed },
        dbPlan := w.dbPlan, llmCalls := w.llmCalls }
  | some plan =>
    if plan.steps.length ≤ w.state.currentStepIndex then
      let rp := reviewPromptText plan
      let response := oracle w.llmCalls
      let calls := w.llmCalls + 1
      if strHasSub response.content "TASK_COMPLETE" then
        Except.ok
          { update :=
              { emptyUpdate with
                  messages := [Message.human rp, Message.ai response.content response.toolCalls],
                  phase := some AgentPhase.completed,
                  tokenUsage := some response.usage },
            dbPlan := w.dbPlan, llmCalls := calls }
      else
        Except.ok
          { update :=
              { emptyUpdate with
                  messages := [Message.human rp, Message.ai response.content response.toolCalls],
                  phase := some AgentPhase.executing,
                  tokenUsage := some response.usage },
            dbPlan := w.dbPlan, llmCalls := calls }
    else
      Except.ok
        { update := { emptyUpdate with phase := some AgentPhase.executing },
          dbPlan := w.dbPlan, llmCalls := w.llmCalls }

def applyOut (w : World) (o : NodeOut) : World :=
  { state := applyUpdate w.state o.update, dbPlan := o.dbPlan, llmCalls := o.llmCalls }

/-- Execute one graph node in a world. -/
def nodeStep (oracle : Oracle) (tools : List ToolSpec) (now : String) :
    NodeId → World → Except String World
  | NodeId.planning, w =>
    match planNode oracle now w with
    | Except.ok o => Except.ok (applyOut w o)
    | Except.error e => Except.error e
  | NodeId.execute, w =>
    match executeNode oracle tools now w with
    | Except.ok o => Except.ok (applyOut w o)
    | Except.error e => Except.error e
  | NodeId.review, w =>
    match reviewNode oracle w with
    | Except.ok o => Except.ok (applyOut w o)
    | Except.error e => Except.error e
  | NodeId.wait, w =>
    Except.ok (applyOut w { update := waitNode w.state, dbPlan := w.dbPlan, llmCalls := w.llmCalls })
  | NodeId.done, w => Except.ok w

/-- The conditional edges of createAgentGraph: which node runs after the
given node produced the given state. -/
def routeAfterNode : NodeId → GraphState → NodeId
  | NodeId.planning, s => routeAfterPlan s
  | NodeId.execute, s => routeAfterExecute s
  | NodeId.review, s => routeAfterReview s
  | NodeId.wait, s => routeAfterWait s
  | NodeId.done, _ => NodeId.done

/-- The graph driver: run up to fuel nodes from the given node, recording
the nodes actually executed; stops at END, on exhausted fuel, or on a
thrown exception. -/
def driveAux (oracle : Oracle) (tools : List ToolSpec) (now : String) :
    Nat → NodeId → World → List NodeId × Except String (World × NodeId)
  | 0, n, w => ([], Except.ok (w, n))
  | f + 1, n, w =>
    if n = NodeId.done then ([], Except.ok (w, NodeId.done))
    else
      match nodeStep oracle tools now n w with
      | Except.error e => ([n], Except.error e)
      | Except.ok w2 =>
        let out := driveAux oracle tools now f (routeAfterNode n w2.state) w2
        (n :: out.1, out.2)

/-- A full graph invocation as AgentService.run performs it: entry
routing from START, then the driver. -/
def invokeGraph (oracle : Oracle) (tools : List ToolSpec) (now : String) (fuel : Nat)
    (w : World) : List NodeId × Except String (World × NodeId) :=
  driveAux oracle tools now fuel (routeFromStart w.state) w

/-- The graph-state defaults of AgentStateAnnotation for the channels
run() does not provide. -/
def defaultGraphState (ticket : Ticket) (planApprovalRequired : Bool) : GraphState :=
  { ticketId := ticket.id, ticketTitle := ticket.title,
    ticketDescription := ticket.description,
    messages := [], structuredPlan := none, currentStepIndex := 0,
    phase := AgentPhase.planning,
    tokenUsage := { inputTokens := 0, outputTokens := 0, totalTokens := 0 },
    waitingFor := none, humanInput := none,
    planApprovalRequired := planApprovalRequired, error := none }

/-- The initialState construction of AgentService.run: when the ticket's
plan is approved (structuredPlan?.approvedAt != null), provide the full
resumption state; otherwise only ticket fields and the approval flag. -/
def mkRunInitialState (ticket : Ticket) (planApprovalRequired : Bool) : GraphState :=
  match ticket.structuredPlan with
  | some pl =>
    if pl.approvedAt.isSome then
      { defaultGraphState ticket planApprovalRequired with
          structuredPlan := some pl,
          phase := AgentPhase.waiting,
          waitingFor := some WaitKind.approval,
          humanInput := some (HumanInput.approval true) }
    else defaultGraphState ticket planApprovalRequired
  | none => defaultGraphState ticket planApprovalRequired

/-- The world at the start of a run(): the initial graph state, the
ticket's stored plan, and no reasoning-engine calls yet. -/
def mkRunWorld (ticket : Ticket) (planApprovalRequired : Bool) : World :=
  { state := mkRunInitialState ticket planApprovalRequired,
    dbPlan := ticket.structuredPlan, llmCalls := 0 }

/-- One row of the agent_states table (DatabaseCheckpointer).  The
serialized checkpoint and metadata stay opaque Strings. -/
structure CkptRow where
  ticketId : String
  checkpointId : String
  parentCheckpointId : Option String
  state : String
  metadata : String
  createdAt : String
  updatedAt : Option String
  pendingWrites : Option String
deriving Repr, DecidableEq

abbrev CkptDb := List CkptRow

def ckptKeyIs (threadId checkpointId : String) (r : CkptRow) : Bool :=
  r.ticketId = threadId ∧ r.checkpointId = checkpointId

/-- DatabaseCheckpointer.put: insert on (ticket_id, checkpoint_id) with
onConflict-merge of state, metadata and updated_at — an upsert keyed on
the pair; created_at, parent and pending writes stay from the first
insert. -/
def ckptPut (db : CkptDb) (threadId : String) (parentCheckpointId : Option String)
    (checkpointId : String) (snapshot metadata now : String) : CkptDb :=
  if db.any (ckptKeyIs threadId checkpointId) then
    db.map (fun r =>
      if ckptKeyIs threadId checkpointId r then
        { r with state := snapshot, metadata := metadata, updatedAt := some now }
      else r)
  else
    db ++ [{ ticketId := threadId, checkpointId := checkpointId,
             parentCheckpointId := parentCheckpointId, state := snapshot,
             metadata := metadata, createdAt := now, updatedAt := none,
             pendingWrites := none }]

/-- orderBy created_at desc |> first over a filtered row list: a row with
maximal created_at (the earlier row wins a tie, matching a stable sort). -/
def latestRow (rows : List CkptRow) : Option CkptRow :=
  rows.foldl
    (fun acc r =>
      match acc with
      | none => some r
      | some b => if b.createdAt < r.createdAt then some r else some b)
    none

/-- DatabaseCheckpointer.getTuple restricted to what the claims observe:
filter by thread id (and checkpoint id when given), newest created_at
first, take the first row. -/
def ckptGetTuple (db : CkptDb) (threadId : String) (checkpointId : Option String) :
    Option CkptRow :=
  let rows := db.filter (fun r =>
    (r.ticketId = threadId : Bool) &&
      (match checkpointId with
       | some cid => (r.checkpointId = cid : Bool)
       | none => true))
  latestRow rows

/-- DatabaseCheckpointer.deleteThread. -/
def ckptDeleteThread (db : CkptDb) (threadId : String) : CkptDb :=
  db.filter (fun r => r.ticketId ≠ threadId)

/-- Number of in_progress steps of a plan's step list. -/
def countIP (steps : List PlanStep) : Nat :=
  (steps.filter (fun s => s.status = PlanStepStatus.in_progress)).length

/-- Number of in_progress steps at positions other than k, when the list
starts at position i. -/
def ipOutside : List PlanStep → Nat → Nat → Nat
  | [], _, _ => 0
  | s :: rest, i, k =>
    (if s.status = PlanStepStatus.in_progress ∧ i ≠ k then 1 else 0) + ipOutside rest (i + 1) k

/-- Number of in_progress steps of the ticket's stored plan. -/
def countIPw (w : World) : Nat :=
  match w.dbPlan with
  | none => 0
  | some p => countIP p.steps

/-- The strengthened single-in-progress invariant on a stored plan and a
current step index: every in_progress step sits at that index. -/
def invStates (dbPlan : Option StructuredPlan) (idx : Nat) : Bool :=
  match dbPlan with
  | none => true
  | some p => decide (ipOutside p.steps 0 idx = 0)

/-- The invariant on a world: every in_progress step of the stored plan
sits at the engine's current step index. -/
def invC8 (w : World) : Bool :=
  invStates w.dbPlan w.state.currentStepIndex

def usageNonNegB (u : TokenUsage) : Bool :=
  decide (0 ≤ u.inputTokens) && decide (0 ≤ u.outputTokens) && decide (0 ≤ u.totalTokens)

/-- The usage an op adds is non-negative (trivially true for every op
other than incrementTurn with a reported usage). -/
def opUsageNonNeg : TicketOp → Bool
  | TicketOp.increment (some u) _ => usageNonNegB u
  | _ => true

def usageLe (a b : TokenUsage) : Prop :=
  a.inputTokens ≤ b.inputTokens ∧ a.outputTokens ≤ b.outputTokens ∧
    a.totalTokens ≤ b.totalTokens

def toolMessagesOf (msgs : List Message) : List Message :=
  msgs.filter (fun m =>
    match m with
    | Message.tool _ _ => true
    | _ => false)

def nodeOutMessages : Except String NodeOut → List Message
  | Except.ok o => o.update.messages
  | Except.error _ => []

def nodeOutPhase : Except String NodeOut → Option AgentPhase
  | Except.ok o => o.update.phase
  | Except.error _ => none

def nodeOutIsOk : Except String NodeOut → Bool
  | Except.ok _ => true
  | Except.error _ => false

/- Concrete inputs used by witnesses and counterexamples. -/

def zeroUsage : TokenUsage := { inputTokens := 0, outputTokens := 0, totalTokens := 0 }

def oracle0 : Oracle := fun _ =>
  { content := "Everything checks out. TASK_COMPLETE", toolCalls := [], usage := zeroUsage }

def exStepPending : PlanStep :=
  { id := "s0", index := 0, title := "Do it", description := "Do the thing",
    status := PlanStepStatus.pending, startedAt := none, completedAt := none,
    output := none, error := none, retryCount := 0, maxRetries := 3 }

def exPlanApproved : StructuredPlan :=
  { version := 1, summary := "plan", steps := [exStepPending], generatedAt := "g0",
    approvedAt := some "a0", approvedBy := some "user" }

def exTicket : Ticket :=
  { id := "T1", title := "Ticket", description := "Desc",
    status := TicketStatus.in_progress, priority := "medium", createdAt := "c0",
    updatedAt := "c0", resolvedAt := none, structuredPlan := some exPlanApproved,
    currentTurn := 0, maxTurns := 50, tokenUsage := zeroUsage, pendingApproval := none,
    pendingQuestion := none, workingBranch := none, commits := [] }

def exTicketDraft : Ticket := { exTicket with status := TicketStatus.draft }

def exDb : TicketDb := [("T1", exTicketDraft)]

def exWaitState : GraphState :=
  { ticketId := "T1", ticketTitle := "Ticket", ticketDescription := "Desc",
    messages := [], structuredPlan := some exPlanApproved, currentStepIndex := 0,
    phase := AgentPhase.waiting, tokenUsage := zeroUsage,
    waitingFor := some WaitKind.approval, humanInput := some (HumanInput.approval true),
    planApprovalRequired := true, error := none }

def exWaitWorld : World :=
  { state := exWaitState, dbPlan := some exPlanApproved, llmCalls := 0 }

def exExecState : GraphState :=
  { exWaitState with phase := AgentPhase.executing, waitingFor := none, humanInput := none }

def exExecWorld : World :=
  { state := exExecState, dbPlan := some exPlanApproved, llmCalls := 0 }

def exPlanningState : GraphState :=
  { exWaitState with
      phase := AgentPhase.planning, structuredPlan := none, waitingFor := none,
      humanInput := none }

def exPlanningWorld : World :=
  { state := exPlanningState, dbPlan := none, llmCalls := 0 }

/-- A response whose content has brace-delimited text that is not valid
JSON: the regex matches but JSON.parse throws. -/
def oracleBadJson : Oracle := fun _ =>
  { content := "\x7bx\x7d", toolCalls := [], usage := zeroUsage }

/-- A response with no brace-delimited text at all. -/
def oracleNoJson : Oracle := fun _ =>
  { content := "I cannot produce a plan right now.", toolCalls := [], usage := zeroUsage }

/-- A response requesting one tool call whose name matches no available
tool. -/
def oracleUnknownTool : Oracle := fun _ =>
  { content := "Using a tool",
    toolCalls := [{ id := "call1", name := "write_file", args := "x" }],
    usage := zeroUsage }

def c6Tools : List ToolSpec :=
  [{ name := "read_file", impl := fun _ => Except.ok "contents" }]

def exUsage : TokenUsage := { inputTokens := 5, outputTokens := 7, totalTokens := 12 }

def exOps : List TicketOp :=
  [TicketOp.increment (some exUsage) "t1", TicketOp.transition TicketStatus.completed "t2"]

/- Theorems. -/

theorem applyUpdate_empty (s : GraphState) : applyUpdate s emptyUpdate = s := by
  cases s
  simp [applyUpdate, emptyUpdate]

/-- C1: in phase waiting, the wait step never calls the reasoning engine;
approval granted gives phase executing with waitingFor null; approval
denied gives phase completed with a terminal error mentioning rejected;
an answer gives phase executing with the answer appended to the history
and waitingFor null; absent humanInput the state is returned unchanged
(still waiting) and routing exits the graph instead of re-invoking wait,
so wait never reaches executing or completed without human input. -/
theorem wait_step_spec (oracle : Oracle) (tools : List ToolSpec) (now : String)
    (w : World) (h : w.state.phase = AgentPhase.waiting) :
    ∃ w2, nodeStep oracle tools now NodeId.wait w = Except.ok w2 ∧
      w2.llmCalls = w.llmCalls ∧
      (w.state.humanInput = some (HumanInput.approval true) →
        w2.state.phase = AgentPhase.executing ∧ w2.state.waitingFor = none) ∧
      (w.state.humanInput = some (HumanInput.approval false) →
        w2.state.phase = AgentPhase.completed ∧
        w2.state.error = some "Plan was rejected by user" ∧
        strHasSub "Plan was rejected by user" "rejected" = true) ∧
      (∀ a, w.state.humanInput = some (HumanInput.answer a) →
        w2.state.phase = AgentPhase.executing ∧ w2.state.waitingFor = none ∧
        w2.state.messages = w.state.messages ++ [Message.human ("User response: " ++ a)]) ∧
      (w.state.humanInput = none →
        w2.state = w.state ∧ w2.state.phase = AgentPhase.waiting ∧
        routeAfterNode NodeId.wait w2.state = NodeId.done) := by
  refine ⟨_, rfl, rfl, ?_, ?_, ?_, ?_⟩
  · intro hi
    simp [applyOut, applyUpdate, waitNode, hi, emptyUpdate]
  · intro hi
    refine ⟨?_, ?_, by decide⟩ <;> simp [applyOut, applyUpdate, waitNode, hi, emptyUpdate]
  · intro a hi
    simp [applyOut, applyUpdate, waitNode, hi, emptyUpdate]
  · intro hi
    have hs : applyUpdate w.state (waitNode w.state) = w.state := by
      rw [waitNode, hi]
      exact applyUpdate_empty w.state
    refine ⟨hs, ?_, ?_⟩
    · rw [show (applyOut w
        { update := waitNode w.state, dbPlan := w.dbPlan, llmCalls := w.llmCalls }).state =
          applyUpdate w.state (waitNode w.state) from rfl, hs, h]
    · rw [show (applyOut w
        { update := waitNode w.state, dbPlan := w.dbPlan, llmCalls := w.llmCalls }).state =
          applyUpdate w.state (waitNode w.state) from rfl, hs]
      simp [routeAfterNode, routeAfterWait, h]

/-- C1 witness: the wait step applied to a concrete waiting state with a
granted approval. -/
theorem wait_step_spec_witness :
    exWaitWorld.state.phase = AgentPhase.waiting ∧
    ∃ w2, nodeStep oracle0 [] "t0" NodeId.wait exWaitWorld = Except.ok w2 ∧
      w2.llmCalls = exWaitWorld.llmCalls ∧
      (exWaitWorld.state.humanInput = some (HumanInput.approval true) →
        w2.state.phase = AgentPhase.executing ∧ w2.state.waitingFor = none) ∧
      (exWaitWorld.state.humanInput = some (HumanInput.approval false) →
        w2.state.phase = AgentPhase.completed ∧
        w2.state.error = some "Plan was rejected by user" ∧
        strHasSub "Plan was rejected by user" "rejected" = true) ∧
      (∀ a, exWaitWorld.state.humanInput = some (HumanInput.answer a) →
        w2.state.phase = AgentPhase.executing ∧ w2.state.waitingFor = none ∧
        w2.state.messages = exWaitWorld.state.messages ++
          [Message.human ("User response: " ++ a)]) ∧
      (exWaitWorld.state.humanInput = none →
        w2.state = exWaitWorld.state ∧ w2.state.phase = AgentPhase.waiting ∧
        routeAfterNode NodeId.wait w2.state = NodeId.done) :=
  ⟨rfl, wait_step_spec oracle0 [] "t0" exWaitWorld rfl⟩

/-- C2: transitionStatus succeeds exactly when the target is in the
allowed-transition table (spelled out below exactly as the claim lists
it) for the ticket's current status; a disallowed target raises
InvalidTransitionError carrying from/to and leaves the store — hence
status and resolvedAt — unchanged; and resolvedAt is stamped exactly when
the new status is completed, failed or cancelled, otherwise it keeps its
old value. -/
theorem transitionStatus_spec (db : TicketDb) (id : String) (t : Ticket)
    (target : TicketStatus) (now : String) (h : dbGet db id = some t) :
    (VALID_TRANSITIONS TicketStatus.draft =
        [TicketStatus.pending_approval, TicketStatus.cancelled] ∧
     VALID_TRANSITIONS TicketStatus.pending_approval =
        [TicketStatus.approved, TicketStatus.draft, TicketStatus.cancelled] ∧
     VALID_TRANSITIONS TicketStatus.approved =
        [TicketStatus.in_progress, TicketStatus.cancelled] ∧
     VALID_TRANSITIONS TicketStatus.in_progress =
        [TicketStatus.awaiting_input, TicketStatus.paused, TicketStatus.completed,
         TicketStatus.failed, TicketStatus.cancelled] ∧
     VALID_TRANSITIONS TicketStatus.awaiting_input =
        [TicketStatus.in_progress, TicketStatus.paused, TicketStatus.cancelled] ∧
     VALID_TRANSITIONS TicketStatus.paused =
        [TicketStatus.in_progress, TicketStatus.cancelled] ∧
     VALID_TRANSITIONS TicketStatus.completed = [] ∧
     VALID_TRANSITIONS TicketStatus.failed = [TicketStatus.draft] ∧
     VALID_TRANSITIONS TicketStatus.cancelled = [TicketStatus.draft]) ∧
    ((∃ t2, (transitionStatusCall db id target now).1 = Except.ok t2) ↔
      target ∈ VALID_TRANSITIONS t.status) ∧
    (target ∉ VALID_TRANSITIONS t.status →
      (transitionStatusCall db id target now).1 =
        Except.error (TicketErr.invalidTransition t.status target) ∧
      (transitionStatusCall db id target now).2 = db) ∧
    (∀ t2, (transitionStatusCall db id target now).1 = Except.ok t2 →
      t2.status = target ∧
      t2.resolvedAt =
        (if target = TicketStatus.completed ∨ target = TicketStatus.failed
            ∨ target = TicketStatus.cancelled then some now else t.resolvedAt) ∧
      (transitionStatusCall db id target now).2 = dbSet db id t2) := by
  refine ⟨⟨rfl, rfl, rfl, rfl, rfl, rfl, rfl, rfl, rfl⟩, ?_, ?_, ?_⟩
  · by_cases hm : target ∈ VALID_TRANSITIONS t.status
    · have hc : (VALID_TRANSITIONS t.status).contains target = true := by simpa using hm
      simp [transitionStatusCall, transitionStatus, h, hc, hm]
    · have hc : (VALID_TRANSITIONS t.status).contains target = false := by
        simpa using hm
      simp [transitionStatusCall, transitionStatus, h, hc, hm]
  · intro hm
    have hc : (VALID_TRANSITIONS t.status).contains target = false := by simpa using hm
    simp [transitionStatusCall, transitionStatus, h, hc, hm]
  · intro t2 ht2
    by_cases hm : target ∈ VALID_TRANSITIONS t.status
    · have hc : (VALID_TRANSITIONS t.status).contains target = true := by simpa using hm
      simp only [transitionStatusCall, transitionStatus, h, hc, if_true] at ht2 ⊢
      simp at ht2
      subst ht2
      simp
    · have hc : (VALID_TRANSITIONS t.status).contains target = false := by simpa using hm
      simp [transitionStatusCall, transitionStatus, h, hc, hm] at ht2

/-- C2 witness: a draft ticket moved to pending_approval in a concrete
one-ticket store. -/
theorem transitionStatus_spec_witness :
    dbGet exDb "T1" = some exTicketDraft ∧
    ((∃ t2, (transitionStatusCall exDb "T1" TicketStatus.pending_approval "t9").1 =
        Except.ok t2) ↔
      TicketStatus.pending_approval ∈ VALID_TRANSITIONS exTicketDraft.status) :=
  ⟨rfl,
   (transitionStatus_spec exDb "T1" exTicketDraft TicketStatus.pending_approval "t9"
      rfl).2.1⟩

theorem updateStepsFrom_out_of_range (patch : StepPatch) (stepIndex : Int)
    (steps : List PlanStep) :
    ∀ i : Nat, (stepIndex < (i : Int) ∨ (i : Int) + steps.length ≤ stepIndex) →
      updateStepsFrom patch stepIndex steps i = steps := by
  induction steps with
  | nil => intro i _; rfl
  | cons s rest ih =>
    intro i hi
    have hlen : ((s :: rest).length : Int) = (rest.length : Int) + 1 := by
      simp
    have hne : ¬ ((i : Int) = stepIndex) := by
      rcases hi with h1 | h2
      · omega
      · rw [hlen] at h2; omega
    rw [updateStepsFrom, if_neg hne]
    congr 1
    apply ih (i + 1)
    rcases hi with h1 | h2
    · left; push_cast; omega
    · right; rw [hlen] at h2; push_cast; omega

/-- C10: updatePlanStep with a step index outside the plan (negative or
past the end) completes without error and leaves the plan entirely
unchanged: the merged step list equals the old one and no step is
created. -/
theorem updatePlanStep_out_of_range_spec (t : Ticket) (plan : StructuredPlan)
    (stepIndex : Int) (patch : StepPatch) (now : String)
    (hp : t.structuredPlan = some plan)
    (hr : stepIndex < 0 ∨ (plan.steps.length : Int) ≤ stepIndex) :
    updatePlanStepT t stepIndex patch now =
      Except.ok { t with structuredPlan := some plan, updatedAt := now } := by
  have hsteps : updateStepsAt plan.steps stepIndex patch = plan.steps := by
    rw [updateStepsAt]
    apply updateStepsFrom_out_of_range
    rcases hr with h1 | h2
    · left; omega
    · right; omega
  simp only [updatePlanStepT, hp, hsteps]

/-- C10 witness: index 5 on a one-step plan. -/
theorem updatePlanStep_out_of_range_spec_witness :
    exTicket.structuredPlan = some exPlanApproved ∧
    ((5 : Int) < 0 ∨ ((exPlanApproved.steps.length : Int) ≤ 5)) ∧
    updatePlanStepT exTicket 5 emptyPatch "t5" =
      Except.ok { exTicket with structuredPlan := some exPlanApproved, updatedAt := "t5" } :=
  ⟨rfl, Or.inr (by decide),
   updatePlanStep_out_of_range_spec exTicket exPlanApproved 5 emptyPatch "t5" rfl
     (Or.inr (by decide))⟩

theorem usageLe_refl (u : TokenUsage) : usageLe u u :=
  ⟨le_refl _, le_refl _, le_refl _⟩

theorem usageLe_trans {a b c : TokenUsage} (h1 : usageLe a b) (h2 : usageLe b c) :
    usageLe a c :=
  ⟨le_trans h1.1 h2.1, le_trans h1.2.1 h2.2.1, le_trans h1.2.2 h2.2.2⟩

theorem transitionStatus_preserves_turn (t : Ticket) (target : TicketStatus) (now : String) :
    ∀ t2, transitionStatus t target now = Except.ok t2 →
      t2.currentTurn = t.currentTurn ∧ t2.tokenUsage = t.tokenUsage := by
  intro t2 h
  rw [transitionStatus] at h
  split at h
  · cases h; exact ⟨rfl, rfl⟩
  · cases h

theorem updatePlanStepT_preserves_turn (t : Ticket) (i : Int) (patch : StepPatch)
    (now : String) :
    ∀ t2, updatePlanStepT t i patch now = Except.ok t2 →
      t2.currentTurn = t.currentTurn ∧ t2.tokenUsage = t.tokenUsage := by
  intro t2 h
  rw [updatePlanStepT] at h
  split at h
  · cases h
  · cases h; exact ⟨rfl, rfl⟩

theorem approvePlanT_preserves_turn (t : Ticket) (approvedBy now : String) :
    ∀ t2, approvePlanT t approvedBy now = Except.ok t2 →
      t2.currentTurn = t.currentTurn ∧ t2.tokenUsage = t.tokenUsage := by
  intro t2 h
  rw [approvePlanT] at h
  split at h
  · cases h
  · cases h; exact ⟨rfl, rfl⟩

theorem applyOp_monotone (t : Ticket) (op : TicketOp) (h : opUsageNonNeg op = true) :
    t.currentTurn ≤ (applyOp t op).currentTurn ∧
      usageLe t.tokenUsage (applyOp t op).tokenUsage := by
  cases op with
  | transition target now =>
    simp only [applyOp]
    rcases hc : transitionStatus t target now with e | t2
    · exact ⟨le_refl _, usageLe_refl _⟩
    · obtain ⟨h1, h2⟩ := transitionStatus_preserves_turn t target now t2 hc
      exact ⟨le_of_eq h1.symm, by rw [h2]; exact usageLe_refl _⟩
  | increment usage now =>
    simp only [applyOp, incrementTurn]
    refine ⟨by omega, ?_⟩
    cases usage with
    | none => exact usageLe_refl _
    | some u =>
      simp only [opUsageNonNeg, usageNonNegB, Bool.and_eq_true, decide_eq_true_eq] at h
      exact ⟨by simp [addUsage]; omega, by simp [addUsage]; omega, by simp [addUsage]; omega⟩
  | updateStep i patch now =>
    simp only [applyOp]
    rcases hc : updatePlanStepT t i patch now with e | t2
    · exact ⟨le_refl _, usageLe_refl _⟩
    · obtain ⟨h1, h2⟩ := updatePlanStepT_preserves_turn t i patch now t2 hc
      exact ⟨le_of_eq h1.symm, by rw [h2]; exact usageLe_refl _⟩
  | setPlan plan now => exact ⟨le_refl _, usageLe_refl _⟩
  | approve approvedBy now =>
    simp only [applyOp]
    rcases hc : approvePlanT t approvedBy now with e | t2
    · exact ⟨le_refl _, usageLe_refl _⟩
    · obtain ⟨h1, h2⟩ := approvePlanT_preserves_turn t approvedBy now t2 hc
      exact ⟨le_of_eq h1.symm, by rw [h2]; exact usageLe_refl _⟩
  | requestApproval approval now => exact ⟨le_refl _, usageLe_refl _⟩
  | grantApproval now =>
    simp only [applyOp]
    cases t.pendingApproval <;> exact ⟨le_refl _, usageLe_refl _⟩
  | denyApproval now =>
    simp only [applyOp]
    cases t.pendingApproval <;> exact ⟨le_refl _, usageLe_refl _⟩
  | askQuestion question now => exact ⟨le_refl _, usageLe_refl _⟩
  | answerQuestion now =>
    simp only [applyOp]
    cases t.pendingQuestion <;> exact ⟨le_refl _, usageLe_refl _⟩
  | addCommit c now => exact ⟨le_refl _, usageLe_refl _⟩
  | setBranch branch now => exact ⟨le_refl _, usageLe_refl _⟩
  | updateFields title description priority maxTurns now => exact ⟨le_refl _, usageLe_refl _⟩

theorem foldl_applyOp_monotone (ops : List TicketOp) :
    ∀ t : Ticket, (∀ op ∈ ops, opUsageNonNeg op = true) →
      t.currentTurn ≤ (ops.foldl applyOp t).currentTurn ∧
      usageLe t.tokenUsage (ops.foldl applyOp t).tokenUsage := by
  induction ops with
  | nil => intro t _; exact ⟨le_refl _, usageLe_refl _⟩
  | cons op rest ih =>
    intro t h
    have h1 := applyOp_monotone t op (h op (by simp))
    have h2 := ih (applyOp t op) (fun o ho => h o (by simp [ho]))
    simp only [List.foldl]
    exact ⟨le_trans h1.1 h2.1, usageLe_trans h1.2 h2.2⟩

/-- C9: across any sequence of ticket mutations whose reported usages are
non-negative, currentTurn and every tokenUsage component are monotone
non-decreasing (no operation resets them), and one incrementTurn call
adds exactly 1 to currentTurn and sums the reported usage into the
stored totals. -/
theorem turn_token_monotonic (t : Ticket) (ops : List TicketOp)
    (h : ∀ op ∈ ops, opUsageNonNeg op = true) :
    t.currentTurn ≤ (ops.foldl applyOp t).currentTurn ∧
    usageLe t.tokenUsage (ops.foldl applyOp t).tokenUsage ∧
    (∀ u now, (incrementTurn t (some u) now).currentTurn = t.currentTurn + 1 ∧
      (incrementTurn t (some u) now).tokenUsage = addUsage t.tokenUsage u) :=
  ⟨(foldl_applyOp_monotone ops t h).1, (foldl_applyOp_monotone ops t h).2,
   fun _ _ => ⟨rfl, rfl⟩⟩

/-- C9 witness: a concrete increment followed by a completion transition. -/
theorem turn_token_monotonic_witness :
    (∀ op ∈ exOps, opUsageNonNeg op = true) ∧
    exTicket.currentTurn ≤ (exOps.foldl applyOp exTicket).currentTurn ∧
    usageLe exTicket.tokenUsage (exOps.foldl applyOp exTicket).tokenUsage :=
  ⟨by decide, (turn_token_monotonic exTicket exOps (by decide)).1,
   (turn_token_monotonic exTicket exOps (by decide)).2.1⟩

theorem filter_map_nil_of_no_thread (wid : String) (p : CkptRow → Bool)
    (g : CkptRow → CkptRow) (db : CkptDb)
    (h : db.all (fun r => r.ticketId ≠ wid) = true)
    (hp : ∀ r, r.ticketId ≠ wid → p (g r) = false) :
    (db.map g).filter p = [] := by
  induction db with
  | nil => rfl
  | cons r rest ih =>
    simp only [List.all_cons, Bool.and_eq_true, decide_eq_true_eq] at h
    simp [List.filter_cons, hp r h.1, ih h.2]

theorem any_key_false_of_no_thread (wid cid : String) (db : CkptDb)
    (h : db.all (fun r => r.ticketId ≠ wid) = true) :
    db.any (ckptKeyIs wid cid) = false := by
  induction db with
  | nil => rfl
  | cons r rest ih =>
    simp only [List.all_cons, Bool.and_eq_true, decide_eq_true_eq] at h
    have hk : ckptKeyIs wid cid r = false := by
      simp [ckptKeyIs, h.1]
    simp [List.any_cons, hk, ih h.2]

/-- C3: two sequential puts with the same (workItemId, checkpointId) into
a store with no rows for that work item leave exactly one row with that
key, whose snapshot and metadata are the second write's, and getLatest
for that work item returns the second snapshot only. -/
theorem checkpointer_put_upsert_spec (db : CkptDb) (wid cid : String)
    (p1 p2 : Option String) (s1 m1 t1 s2 m2 t2 : String)
    (h : db.all (fun r => r.ticketId ≠ wid) = true) :
    ((ckptPut (ckptPut db wid p1 cid s1 m1 t1) wid p2 cid s2 m2 t2).filter
        (ckptKeyIs wid cid)).length = 1 ∧
    (∀ r ∈ (ckptPut (ckptPut db wid p1 cid s1 m1 t1) wid p2 cid s2 m2 t2).filter
        (ckptKeyIs wid cid), r.state = s2 ∧ r.metadata = m2) ∧
    (∃ r, ckptGetTuple (ckptPut (ckptPut db wid p1 cid s1 m1 t1) wid p2 cid s2 m2 t2)
        wid none = some r ∧ r.state = s2 ∧ r.metadata = m2) := by
  have hany1 := any_key_false_of_no_thread wid cid db h
  have hput1 : ckptPut db wid p1 cid s1 m1 t1 =
      db ++ [{ ticketId := wid, checkpointId := cid, parentCheckpointId := p1,
               state := s1, metadata := m1, createdAt := t1, updatedAt := none,
               pendingWrites := none }] := by
    simp [ckptPut, hany1]
  set row1 : CkptRow :=
    { ticketId := wid, checkpointId := cid, parentCheckpointId := p1, state := s1,
      metadata := m1, createdAt := t1, updatedAt := none, pendingWrites := none } with hrow1
  have hkey1 : ckptKeyIs wid cid row1 = true := by simp [ckptKeyIs, hrow1]
  have hany2 : (db ++ [row1]).any (ckptKeyIs wid cid) = true := by
    simp [List.any_append, hkey1]
  have hput2 : ckptPut (ckptPut db wid p1 cid s1 m1 t1) wid p2 cid s2 m2 t2 =
      (db ++ [row1]).map (fun r =>
        if ckptKeyIs wid cid r then
          { r with state := s2, metadata := m2, updatedAt := some t2 }
        else r) := by
    rw [hput1]
    simp [ckptPut, hany2]
  set g : CkptRow → CkptRow := fun r =>
    if ckptKeyIs wid cid r then
      { r with state := s2, metadata := m2, updatedAt := some t2 }
    else r with hg
  have hgrow1 : g row1 =
      { row1 with state := s2, metadata := m2, updatedAt := some t2 } := by
    simp [hg, hkey1]
  have hmap : (db ++ [row1]).map g = db.map g ++
      [{ row1 with state := s2, metadata := m2, updatedAt := some t2 }] := by
    rw [List.map_append]
    simp [hgrow1]
  have hgtid : ∀ r : CkptRow, (g r).ticketId = r.ticketId := by
    intro r
    by_cases hk : ckptKeyIs wid cid r = true
    · simp [hg, hk]
    · simp [hg, hk]
  have hfilterKey : (db.map g).filter (ckptKeyIs wid cid) = [] := by
    apply filter_map_nil_of_no_thread wid _ g db h
    intro r hr
    have := hgtid r
    simp [ckptKeyIs, this, hr]
  have hkey2 : ckptKeyIs wid cid
      { row1 with state := s2, metadata := m2, updatedAt := some t2 } = true := by
    simp [ckptKeyIs, hrow1]
  rw [hput2, hmap]
  refine ⟨?_, ?_, ?_⟩
  · rw [List.filter_append, hfilterKey]
    simp [List.filter_cons, hkey2]
  · intro r hr
    rw [List.filter_append, hfilterKey] at hr
    simp [List.filter_cons, hkey2] at hr
    rw [hr]
    exact ⟨rfl, rfl⟩
  · refine ⟨{ row1 with state := s2, metadata := m2, updatedAt := some t2 }, ?_, rfl, rfl⟩
    have hfilterThread : (db.map g).filter
        (fun r => (r.ticketId = wid : Bool) &&
          (match (none : Option String) with
           | some cid2 => (r.checkpointId = cid2 : Bool)
           | none => true)) = [] := by
      apply filter_map_nil_of_no_thread wid _ g db h
      intro r hr
      have := hgtid r
      simp [this, hr]
    rw [ckptGetTuple]
    simp only [List.filter_append, hfilterThread, List.nil_append]
    simp [List.filter_cons, latestRow]

/-- C3 witness: two puts into an empty store. -/
theorem checkpointer_put_upsert_spec_witness :
    (([] : CkptDb).all (fun r => r.ticketId ≠ "T1") = true) ∧
    (∃ r, ckptGetTuple (ckptPut (ckptPut [] "T1" none "c1" "snapA" "mA" "t1")
        "T1" none "c1" "snapB" "mB" "t2") "T1" none = some r ∧
      r.state = "snapB" ∧ r.metadata = "mB") :=
  ⟨rfl,
   (checkpointer_put_upsert_spec [] "T1" "c1" none none "snapA" "mA" "t1" "snapB" "mB" "t2"
      rfl).2.2⟩

/-- C7: in reviewing, when currentStepIndex is strictly below the plan
length the node returns phase executing without calling the reasoning
engine (unchanged call counter, unchanged store); otherwise it calls the
engine exactly once and returns phase completed exactly when the response
content contains TASK_COMPLETE, and phase executing for any other
content. -/
theorem review_node_spec (oracle : Oracle) (w : World) (plan : StructuredPlan)
    (hp : w.state.structuredPlan = some plan) :
    (w.state.currentStepIndex < plan.steps.length →
      reviewNode oracle w = Except.ok
        { update := { emptyUpdate with phase := some AgentPhase.executing },
          dbPlan := w.dbPlan, llmCalls := w.llmCalls }) ∧
    (plan.steps.length ≤ w.state.currentStepIndex →
      ∃ o, reviewNode oracle w = Except.ok o ∧ o.llmCalls = w.llmCalls + 1 ∧
        (o.update.phase = some AgentPhase.completed ↔
          strHasSub (oracle w.llmCalls).content "TASK_COMPLETE" = true) ∧
        (strHasSub (oracle w.llmCalls).content "TASK_COMPLETE" = false →
          o.update.phase = some AgentPhase.executing)) := by
  constructor
  · intro hlt
    have hc : ¬ (plan.steps.length ≤ w.state.currentStepIndex) := by omega
    simp [reviewNode, hp, hc]
  · intro hge
    by_cases hs : strHasSub (oracle w.llmCalls).content "TASK_COMPLETE" = true
    · refine ⟨⟨{ emptyUpdate with
          messages := [Message.human (reviewPromptText plan),
            Message.ai (oracle w.llmCalls).content (oracle w.llmCalls).toolCalls],
          phase := some AgentPhase.completed,
          tokenUsage := some (oracle w.llmCalls).usage },
        w.dbPlan, w.llmCalls + 1⟩, ?_, rfl, ?_, ?_⟩
      · simp [reviewNode, hp, hge, hs]
      · simp [hs]
      · intro hfalse; rw [hs] at hfalse; cases hfalse
    · have hs2 : strHasSub (oracle w.llmCalls).content "TASK_COMPLETE" = false := by
        cases hb : strHasSub (oracle w.llmCalls).content "TASK_COMPLETE"
        · rfl
        · exact absurd hb hs
      refine ⟨⟨{ emptyUpdate with
          messages := [Message.human (reviewPromptText plan),
            Message.ai (oracle w.llmCalls).content (oracle w.llmCalls).toolCalls],
          phase := some AgentPhase.executing,
          tokenUsage := some (oracle w.llmCalls).usage },
        w.dbPlan, w.llmCalls + 1⟩, ?_, rfl, ?_, ?_⟩
      · simp [reviewNode, hp, hge, hs2]
      · simp [hs2]
      · intro _; rfl

/-- C7 witness: reviewing with one step left transitions straight to
executing with no reasoning-engine call. -/
theorem review_node_spec_witness :
    exExecWorld.state.structuredPlan = some exPlanApproved ∧
    exExecWorld.state.currentStepIndex < exPlanApproved.steps.length ∧
    reviewNode oracle0 exExecWorld = Except.ok
      { update := { emptyUpdate with phase := some AgentPhase.executing },
        dbPlan := exExecWorld.dbPlan, llmCalls := exExecWorld.llmCalls } :=
  ⟨rfl, by decide,
   (review_node_spec oracle0 exExecWorld exPlanApproved rfl).1 (by decide)⟩

/-- C5 counterexample: a planning response whose content is a brace
block that is not valid JSON.  The regex matches, JSON.parse throws, and
the planning step raises the exception out of the node instead of
returning phase completed with a terminal error, contrary to the claim
(which covers every response that fails to parse as the plan shape). -/
theorem plan_parse_failure_counterexample :
    planNode oracleBadJson "t0" exPlanningWorld =
      Except.error "SyntaxError: Unexpected token in JSON" ∧
    nodeOutIsOk (planNode oracleBadJson "t0" exPlanningWorld) = false :=
  ⟨rfl, rfl⟩

/-- C5 amended: when the planning response contains no brace-delimited
block at all (the regex finds no JSON), the planning step returns phase
completed with a terminal error referencing the JSON parse failure, and
it makes exactly one reasoning-engine call with no internal retry or
loop.  When a block is extracted but is not a valid JSON object carrying
a steps array, the step instead throws, so the exception — not a
returned phase — aborts the graph invocation (the service wrapper
catches it). -/
theorem plan_parse_failure_amended (oracle : Oracle) (now : String) (w : World)
    (h : jsonMatch (oracle w.llmCalls).content = none) :
    planNode oracle now w = Except.ok
      ⟨{ emptyUpdate with
          messages := [Message.human
              (planPromptText w.state.ticketTitle w.state.ticketDescription),
            Message.ai (oracle w.llmCalls).content (oracle w.llmCalls).toolCalls],
          error := some (some "Failed to parse plan: No valid JSON found in response"),
          phase := some AgentPhase.completed,
          tokenUsage := some (oracle w.llmCalls).usage },
        w.dbPlan, w.llmCalls + 1⟩ ∧
    strHasSub "Failed to parse plan: No valid JSON found in response" "JSON" = true := by
  constructor
  · simp [planNode, h]
  · decide

/-- C5 witness: a response with no braces at all. -/
theorem plan_parse_failure_amended_witness :
    jsonMatch (oracleNoJson exPlanningWorld.llmCalls).content = none ∧
    (planNode oracleNoJson "t0" exPlanningWorld = Except.ok
      ⟨{ emptyUpdate with
          messages := [Message.human
              (planPromptText exPlanningWorld.state.ticketTitle
                exPlanningWorld.state.ticketDescription),
            Message.ai (oracleNoJson exPlanningWorld.llmCalls).content
              (oracleNoJson exPlanningWorld.llmCalls).toolCalls],
          error := some (some "Failed to parse plan: No valid JSON found in response"),
          phase := some AgentPhase.completed,
          tokenUsage := some (oracleNoJson exPlanningWorld.llmCalls).usage },
        exPlanningWorld.dbPlan, exPlanningWorld.llmCalls + 1⟩ ∧
     strHasSub "Failed to parse plan: No valid JSON found in response" "JSON" = true) :=
  ⟨rfl, plan_parse_failure_amended oracleNoJson "t0" exPlanningWorld rfl⟩

/-- C6 counterexample: a response requesting exactly one tool call whose
name matches no available tool.  The step stays in executing, but nothing
is executed and no result or error message is appended for that call —
the loop silently skips unknown tool names — contrary to the claim that
every requested call gets its result or caught error appended. -/
theorem execute_tool_calls_counterexample :
    (oracleUnknownTool 0).toolCalls.length = 1 ∧
    nodeOutIsOk (executeNode oracleUnknownTool c6Tools "t0" exExecWorld) = true ∧
    nodeOutPhase (executeNode oracleUnknownTool c6Tools "t0" exExecWorld) =
      some AgentPhase.executing ∧
    toolMessagesOf
      (nodeOutMessages (executeNode oracleUnknownTool c6Tools "t0" exExecWorld)) = [] :=
  ⟨rfl, rfl, rfl, rfl⟩

/-- C6 amended: in executing with a valid current step and a stored plan,
the node never throws on tool activity: every requested tool call whose
name matches an available tool is executed synchronously in the order
emitted, and its result — or its caught error, never re-thrown — is
appended to the history in that order; a call naming no available tool is
silently skipped with nothing appended.  If the response contained any
tool calls the returned phase is executing and currentStepIndex is
untouched; if it contained none, the stored plan's current step is marked
completed with the response text as output and a completedAt timestamp,
currentStepIndex advances by exactly 1, and the phase is reviewing. -/
theorem execute_node_amended (oracle : Oracle) (tools : List ToolSpec) (now : String)
    (w : World) (plan : StructuredPlan) (step : PlanStep)
    (hp : w.state.structuredPlan = some plan)
    (hstep : plan.steps.get? w.state.currentStepIndex = some step)
    (hdb : w.dbPlan = some plan) :
    ∃ o, executeNode oracle tools now w = Except.ok o ∧
      o.llmCalls = w.llmCalls + 1 ∧
      ((oracle w.llmCalls).toolCalls ≠ [] →
        o.update.phase = some AgentPhase.executing ∧
        o.update.currentStepIndex = none ∧
        o.update.messages =
          executePromptMsgs w.state plan step ++
            [Message.ai (oracle w.llmCalls).content (oracle w.llmCalls).toolCalls] ++
            (oracle w.llmCalls).toolCalls.filterMap (runToolCall tools)) ∧
      ((oracle w.llmCalls).toolCalls = [] →
        o.update.phase = some AgentPhase.reviewing ∧
        o.update.currentStepIndex = some (w.state.currentStepIndex + 1) ∧
        o.update.messages =
          executePromptMsgs w.state plan step ++
            [Message.ai (oracle w.llmCalls).content (oracle w.llmCalls).toolCalls] ∧
        o.dbPlan = some
          { (if step.status = PlanStepStatus.pending then
              { plan with
                  steps := updateStepsAt plan.steps
                    (w.state.currentStepIndex : Int)
                    { emptyPatch with
                        status := some PlanStepStatus.in_progress,
                        startedAt := some (some now) } }
            else plan) with
            steps := updateStepsAt
              (if step.status = PlanStepStatus.pending then
                updateStepsAt plan.steps (w.state.currentStepIndex : Int)
                  { emptyPatch with
                      status := some PlanStepStatus.in_progress,
                      startedAt := some (some now) }
              else plan.steps)
              (w.state.currentStepIndex : Int)
              { emptyPatch with
                  status := some PlanStepStatus.completed,
                  completedAt := some (some now),
                  output := some (some (oracle w.llmCalls).content) } }) := by
  rw [List.get?_eq_getElem?] at hstep
  by_cases hpend : step.status = PlanStepStatus.pending
  · by_cases htc : (oracle w.llmCalls).toolCalls = []
    · refine ⟨⟨{ emptyUpdate with
          messages := executePromptMsgs w.state plan step ++
            [Message.ai (oracle w.llmCalls).content (oracle w.llmCalls).toolCalls],
          currentStepIndex := some (w.state.currentStepIndex + 1),
          tokenUsage := some (oracle w.llmCalls).usage,
          phase := some AgentPhase.reviewing },
        some { { plan with
              steps := updateStepsAt plan.steps
                (w.state.currentStepIndex : Int)
                { emptyPatch with
                    status := some PlanStepStatus.in_progress,
                    startedAt := some (some now) } } with
          steps := updateStepsAt
            (updateStepsAt plan.steps (w.state.currentStepIndex : Int)
              { emptyPatch with
                  status := some PlanStepStatus.in_progress,
                  startedAt := some (some now) })
            (w.state.currentStepIndex : Int)
            { emptyPatch with
                status := some PlanStepStatus.completed,
                completedAt := some (some now),
                output := some (some (oracle w.llmCalls).content) } },
        w.llmCalls + 1⟩, ?_, rfl, ?_, ?_⟩
      · simp [executeNode, hp, hstep, hdb, hpend, htc, markDb]
      · intro hne; exact absurd htc hne
      · intro _
        refine ⟨rfl, rfl, rfl, ?_⟩
        simp [hpend]
    · refine ⟨⟨{ emptyUpdate with
          messages := executePromptMsgs w.state plan step ++
            [Message.ai (oracle w.llmCalls).content (oracle w.llmCalls).toolCalls] ++
            (oracle w.llmCalls).toolCalls.filterMap (runToolCall tools),
          tokenUsage := some (oracle w.llmCalls).usage,
          phase := some AgentPhase.executing },
        some { plan with
            steps := updateStepsAt plan.steps
              (w.state.currentStepIndex : Int)
              { emptyPatch with
                  status := some PlanStepStatus.in_progress,
                  startedAt := some (some now) } },
        w.llmCalls + 1⟩, ?_, rfl, ?_, ?_⟩
      · have hne : (oracle w.llmCalls).toolCalls.isEmpty = false := by
          cases hcc : (oracle w.llmCalls).toolCalls with
          | nil => exact absurd hcc htc
          | cons a as => rfl
        simp [executeNode, hp, hstep, hdb, hpend, hne, markDb]
      · intro _
        exact ⟨rfl, rfl, rfl⟩
      · intro heq; exact absurd heq htc
  · by_cases htc : (oracle w.llmCalls).toolCalls = []
    · refine ⟨⟨{ emptyUpdate with
          messages := executePromptMsgs w.state plan step ++
            [Message.ai (oracle w.llmCalls).content (oracle w.llmCalls).toolCalls],
          currentStepIndex := some (w.state.currentStepIndex + 1),
          tokenUsage := some (oracle w.llmCalls).usage,
          phase := some AgentPhase.reviewing },
        some { plan with
            steps := updateStepsAt plan.steps
              (w.state.currentStepIndex : Int)
              { emptyPatch with
                  status := some PlanStepStatus.completed,
                  completedAt := some (some now),
                  output := some (some (oracle w.llmCalls).content) } },
        w.llmCalls + 1⟩, ?_, rfl, ?_, ?_⟩
      · simp [executeNode, hp, hstep, hdb, hpend, htc, markDb]
      · intro hne; exact absurd htc hne
      · intro _
        refine ⟨rfl, rfl, rfl, ?_⟩
        simp [hpend]
    · refine ⟨⟨{ emptyUpdate with
          messages := executePromptMsgs w.state plan step ++
            [Message.ai (oracle w.llmCalls).content (oracle w.llmCalls).toolCalls] ++
            (oracle w.llmCalls).toolCalls.filterMap (runToolCall tools),
          tokenUsage := some (oracle w.llmCalls).usage,
          phase := some AgentPhase.executing },
        some plan,
        w.llmCalls + 1⟩, ?_, rfl, ?_, ?_⟩
      · have hne : (oracle w.llmCalls).toolCalls.isEmpty = false := by
          cases hcc : (oracle w.llmCalls).toolCalls with
          | nil => exact absurd hcc htc
          | cons a as => rfl
        simp [executeNode, hp, hstep, hdb, hpend, hne, markDb]
      · intro _
        exact ⟨rfl, rfl, rfl⟩
      · intro heq; exact absurd heq htc

/-- C6 witness: a response with one matching tool call whose tool throws;
the caught error lands in the history as a tool message and the step
stays executing. -/
theorem execute_node_amended_witness :
    exExecWorld.state.structuredPlan = some exPlanApproved ∧
    exPlanApproved.steps.get? exExecWorld.state.currentStepIndex = some exStepPending ∧
    exExecWorld.dbPlan = some exPlanApproved ∧
    (∃ o, executeNode oracleUnknownTool c6Tools "t0" exExecWorld = Except.ok o ∧
      o.llmCalls = exExecWorld.llmCalls + 1 ∧
      ((oracleUnknownTool exExecWorld.llmCalls).toolCalls ≠ [] →
        o.update.phase = some AgentPhase.executing ∧
        o.update.currentStepIndex = none ∧
        o.update.messages =
          executePromptMsgs exExecWorld.state exPlanApproved exStepPending ++
            [Message.ai (oracleUnknownTool exExecWorld.llmCalls).content
              (oracleUnknownTool exExecWorld.llmCalls).toolCalls] ++
            (oracleUnknownTool exExecWorld.llmCalls).toolCalls.filterMap
              (runToolCall c6Tools)) ∧
      ((oracleUnknownTool exExecWorld.llmCalls).toolCalls = [] →
        o.update.phase = some AgentPhase.reviewing ∧
        o.update.currentStepIndex = some (exExecWorld.state.currentStepIndex + 1) ∧
        o.update.messages =
          executePromptMsgs exExecWorld.state exPlanApproved exStepPending ++
            [Message.ai (oracleUnknownTool exExecWorld.llmCalls).content
              (oracleUnknownTool exExecWorld.llmCalls).toolCalls] ∧
        o.dbPlan = some
          { (if exStepPending.status = PlanStepStatus.pending then
              { exPlanApproved with
                  steps := updateStepsAt exPlanApproved.steps
                    (exExecWorld.state.currentStepIndex : Int)
                    { emptyPatch with
                        status := some PlanStepStatus.in_progress,
                        startedAt := some (some "t0") } }
            else exPlanApproved) with
            steps := updateStepsAt
              (if exStepPending.status = PlanStepStatus.pending then
                updateStepsAt exPlanApproved.steps
                  (exExecWorld.state.currentStepIndex : Int)
                  { emptyPatch with
                      status := some PlanStepStatus.in_progress,
                      startedAt := some (some "t0") }
              else exPlanApproved.steps)
              (exExecWorld.state.currentStepIndex : Int)
              { emptyPatch with
                  status := some PlanStepStatus.completed,
                  completedAt := some (some "t0"),
                  output := some (some (oracleUnknownTool exExecWorld.llmCalls).content) } })) :=
  ⟨rfl, rfl, rfl,
   execute_node_amended oracleUnknownTool c6Tools "t0" exExecWorld exPlanApproved
     exStepPending rfl rfl rfl⟩

theorem waitNode_phase (s : GraphState) :
    (waitNode s).phase ≠ some AgentPhase.planning := by
  cases hhi : s.humanInput with
  | none => simp [waitNode, hhi, emptyUpdate]
  | some hi =>
    cases hi with
    | approval approved => cases approved <;> simp [waitNode, hhi, emptyUpdate]
    | answer a => simp [waitNode, hhi, emptyUpdate]

theorem planNode_phase (oracle : Oracle) (now : String) (w : World) (o : NodeOut)
    (h : planNode oracle now w = Except.ok o) :
    o.update.phase ≠ some AgentPhase.planning := by
  simp only [planNode] at h
  split at h
  · cases h; simp
  · split at h
    · cases h
    · split at h
      · cases h
        simp only []
        split <;> simp
      · cases h

theorem executeNode_phase (oracle : Oracle) (tools : List ToolSpec) (now : String)
    (w : World) (o : NodeOut)
    (h : executeNode oracle tools now w = Except.ok o) :
    o.update.phase ≠ some AgentPhase.planning := by
  simp only [executeNode] at h
  split at h
  · cases h; simp
  · split at h
    · cases h; simp
    · split at h
      · cases h
      · split at h
        · split at h
          · cases h
          · cases h; simp
        · cases h; simp

theorem reviewNode_phase (oracle : Oracle) (w : World) (o : NodeOut)
    (h : reviewNode oracle w = Except.ok o) :
    o.update.phase ≠ some AgentPhase.planning := by
  simp only [reviewNode] at h
  split at h
  · cases h; simp
  · split at h
    · split at h
      · cases h; simp
      · cases h; simp
    · cases h; simp

theorem applyOut_phase_ne (w : World) (o : NodeOut)
    (hw : w.state.phase ≠ AgentPhase.planning)
    (ho : o.update.phase ≠ some AgentPhase.planning) :
    (applyOut w o).state.phase ≠ AgentPhase.planning := by
  show (o.update.phase.getD w.state.phase) ≠ AgentPhase.planning
  cases hph : o.update.phase with
  | none => simpa using hw
  | some ph =>
    simp only [Option.getD_some]
    intro heq
    exact ho (by rw [hph, heq])

theorem nodeStep_phase_ne_planning (oracle : Oracle) (tools : List ToolSpec)
    (now : String) (n : NodeId) (w w2 : World)
    (hw : w.state.phase ≠ AgentPhase.planning)
    (h : nodeStep oracle tools now n w = Except.ok w2) :
    w2.state.phase ≠ AgentPhase.planning := by
  cases n with
  | planning =>
    simp only [nodeStep] at h
    rcases hpn : planNode oracle now w with e | o <;> rw [hpn] at h
    · cases h
    · cases h
      exact applyOut_phase_ne w o hw (planNode_phase oracle now w o hpn)
  | execute =>
    simp only [nodeStep] at h
    rcases hpn : executeNode oracle tools now w with e | o <;> rw [hpn] at h
    · cases h
    · cases h
      exact applyOut_phase_ne w o hw (executeNode_phase oracle tools now w o hpn)
  | review =>
    simp only [nodeStep] at h
    rcases hpn : reviewNode oracle w with e | o <;> rw [hpn] at h
    · cases h
    · cases h
      exact applyOut_phase_ne w o hw (reviewNode_phase oracle w o hpn)
  | wait =>
    simp only [nodeStep] at h
    cases h
    exact applyOut_phase_ne w _ hw (waitNode_phase w.state)
  | done =>
    simp only [nodeStep] at h
    cases h
    exact hw

theorem routeAfterNode_ne_planning (n : NodeId) (s : GraphState)
    (hs : s.phase ≠ AgentPhase.planning) : routeAfterNode n s ≠ NodeId.planning := by
  cases n with
  | planning =>
    simp only [routeAfterNode, routeAfterPlan]
    split
    · simp
    · split <;> simp
  | execute =>
    simp only [routeAfterNode, routeAfterExecute]
    split
    · simp
    · split <;> simp
  | review =>
    by_cases h1 : s.phase = AgentPhase.completed
    · simp [routeAfterNode, routeAfterReview, h1]
    · by_cases h2 : s.phase = AgentPhase.planning
      · exact absurd h2 hs
      · simp [routeAfterNode, routeAfterReview, h1, h2]
  | wait =>
    simp only [routeAfterNode, routeAfterWait]
    split
    · simp
    · split <;> simp
  | done => simp [routeAfterNode]

theorem driveAux_no_planning (oracle : Oracle) (tools : List ToolSpec) (now : String) :
    ∀ (fuel : Nat) (n : NodeId) (w : World), n ≠ NodeId.planning →
      w.state.phase ≠ AgentPhase.planning →
      NodeId.planning ∉ (driveAux oracle tools now fuel n w).1 := by
  intro fuel
  induction fuel with
  | zero => intro n w _ _; simp [driveAux]
  | succ f ih =>
    intro n w hn hw
    rw [driveAux]
    by_cases hd : n = NodeId.done
    · simp [hd]
    · simp only [if_neg hd]
      rcases hns : nodeStep oracle tools now n w with e | w2
      · intro hmem
        simp only [List.mem_singleton] at hmem
        exact hn hmem.symm
      · simp only [List.mem_cons, not_or]
        refine ⟨fun heq => hn heq.symm, ?_⟩
        have hw2 := nodeStep_phase_ne_planning oracle tools now n w w2 hw hns
        exact ih (routeAfterNode n w2.state) w2
          (routeAfterNode_ne_planning n w2.state hw2) hw2

theorem driveAux_trace_head (oracle : Oracle) (tools : List ToolSpec) (now : String)
    (f : Nat) (n : NodeId) (w : World) (hf : 1 ≤ f) (hn : n ≠ NodeId.done) :
    ((driveAux oracle tools now f n w).1).take 1 = [n] := by
  cases f with
  | zero => omega
  | succ f2 =>
    rw [driveAux]
    simp only [if_neg hn]
    rcases hns : nodeStep oracle tools now n w with e | w2 <;> simp

theorem driveAux_trace_cons (oracle : Oracle) (tools : List ToolSpec) (now : String)
    (f : Nat) (n : NodeId) (w w2 : World) (hn : ¬ (n = NodeId.done))
    (h : nodeStep oracle tools now n w = Except.ok w2) :
    (driveAux oracle tools now (f + 1) n w).1 =
      n :: (driveAux oracle tools now f (routeAfterNode n w2.state) w2).1 := by
  rw [driveAux]
  simp only [if_neg hn, h]

/-- C4: for a ticket whose plan has approvedAt set, run() builds an
initial engine state with phase waiting, waitingFor approval, an
approved-approval humanInput and the existing plan; entry routing goes
to the wait step and then to executing, and the planning node is never
executed during that invocation, for any oracle, tool set and fuel. -/
theorem run_approved_plan_resumption_spec (oracle : Oracle) (tools : List ToolSpec)
    (now : String) (ticket : Ticket) (apr : Bool) (p : StructuredPlan) (ts : String)
    (hp : ticket.structuredPlan = some p) (ha : p.approvedAt = some ts) :
    (mkRunInitialState ticket apr).phase = AgentPhase.waiting ∧
    (mkRunInitialState ticket apr).waitingFor = some WaitKind.approval ∧
    (mkRunInitialState ticket apr).humanInput = some (HumanInput.approval true) ∧
    (mkRunInitialState ticket apr).structuredPlan = some p ∧
    routeFromStart (mkRunInitialState ticket apr) = NodeId.wait ∧
    (∀ w1, nodeStep oracle tools now NodeId.wait (mkRunWorld ticket apr) = Except.ok w1 →
      w1.state.phase = AgentPhase.executing ∧
      routeAfterNode NodeId.wait w1.state = NodeId.execute) ∧
    (∀ fuel, NodeId.planning ∉
      (invokeGraph oracle tools now fuel (mkRunWorld ticket apr)).1) ∧
    (∀ fuel, 2 ≤ fuel →
      ((invokeGraph oracle tools now fuel (mkRunWorld ticket apr)).1).take 2 =
        [NodeId.wait, NodeId.execute]) := by
  have hinit : mkRunInitialState ticket apr =
      { defaultGraphState ticket apr with
          structuredPlan := some p,
          phase := AgentPhase.waiting,
          waitingFor := some WaitKind.approval,
          humanInput := some (HumanInput.approval true) } := by
    simp [mkRunInitialState, hp, ha]
  have hws : (mkRunWorld ticket apr).state = mkRunInitialState ticket apr := rfl
  have hroute : routeFromStart (mkRunInitialState ticket apr) = NodeId.wait := by
    rw [hinit]
    simp [routeFromStart]
  have hphase : ∀ o : NodeOut,
      (applyOut (mkRunWorld ticket apr) o).state.phase =
        o.update.phase.getD (mkRunInitialState ticket apr).phase := fun o => rfl
  have hwaitupd : waitNode (mkRunWorld ticket apr).state =
      { emptyUpdate with
          phase := some AgentPhase.executing,
          waitingFor := some none,
          humanInput := some none,
          messages := [Message.human "Plan approved. Proceeding with execution."] } := by
    rw [hws, hinit]
    simp [waitNode]
  have hstep : ∀ w1, nodeStep oracle tools now NodeId.wait (mkRunWorld ticket apr) =
      Except.ok w1 →
      w1.state.phase = AgentPhase.executing ∧
      routeAfterNode NodeId.wait w1.state = NodeId.execute := by
    intro w1 h1
    simp only [nodeStep] at h1
    cases h1
    have hph : (applyOut (mkRunWorld ticket apr)
        { update := waitNode (mkRunWorld ticket apr).state,
          dbPlan := (mkRunWorld ticket apr).dbPlan,
          llmCalls := (mkRunWorld ticket apr).llmCalls }).state.phase =
        AgentPhase.executing := by
      rw [hphase]
      rw [hwaitupd]
      rfl
    exact ⟨hph, by simp [routeAfterNode, routeAfterWait, hph]⟩
  refine ⟨by rw [hinit], by rw [hinit], by rw [hinit], by rw [hinit], hroute, hstep,
    ?_, ?_⟩
  · intro fuel
    rw [invokeGraph, hws, hroute]
    apply driveAux_no_planning
    · intro heq; cases heq
    · rw [hws, hinit]
      intro heq; cases heq
  · intro fuel hf
    obtain ⟨f2, rfl⟩ : ∃ f2, fuel = f2 + 1 + 1 := ⟨fuel - 2, by omega⟩
    rw [invokeGraph, hws, hroute]
    have hnode : nodeStep oracle tools now NodeId.wait (mkRunWorld ticket apr) =
        Except.ok (applyOut (mkRunWorld ticket apr)
          { update := waitNode (mkRunWorld ticket apr).state,
            dbPlan := (mkRunWorld ticket apr).dbPlan,
            llmCalls := (mkRunWorld ticket apr).llmCalls }) := rfl
    rw [driveAux_trace_cons oracle tools now (f2 + 1) NodeId.wait _ _
      (by intro heq; cases heq) hnode]
    have hrw := (hstep _ hnode).2
    rw [hrw, List.take_succ_cons,
      driveAux_trace_head oracle tools now (f2 + 1) NodeId.execute _ (by omega)
        (by intro heq; cases heq)]

/-- C4 witness: a concrete ticket with an approved one-step plan; two
driver steps visit exactly wait then execute. -/
theorem run_approved_plan_resumption_spec_witness :
    exTicket.structuredPlan = some exPlanApproved ∧
    exPlanApproved.approvedAt = some "a0" ∧
    (mkRunInitialState exTicket true).phase = AgentPhase.waiting ∧
    routeFromStart (mkRunInitialState exTicket true) = NodeId.wait ∧
    ((invokeGraph oracle0 [] "t0" 2 (mkRunWorld exTicket true)).1).take 2 =
      [NodeId.wait, NodeId.execute] :=
  ⟨rfl, rfl,
   (run_approved_plan_resumption_spec oracle0 [] "t0" exTicket true exPlanApproved "a0"
      rfl rfl).1,
   (run_approved_plan_resumption_spec oracle0 [] "t0" exTicket true exPlanApproved "a0"
      rfl rfl).2.2.2.2.1,
   (run_approved_plan_resumption_spec oracle0 [] "t0" exTicket true exPlanApproved "a0"
      rfl rfl).2.2.2.2.2.2.2 2 (by omega)⟩

theorem ipOutside_eq_countIP (steps : List PlanStep) :
    ∀ i k : Nat, k < i → ipOutside steps i k = countIP steps := by
  induction steps with
  | nil => intro i k _; rfl
  | cons s rest ih =>
    intro i k hk
    rw [ipOutside, ih (i + 1) k (by omega)]
    by_cases hs : s.status = PlanStepStatus.in_progress
    · rw [if_pos ⟨hs, by omega⟩]
      simp [countIP, List.filter_cons, hs]
      omega
    · rw [if_neg (fun hc => hs hc.1)]
      simp [countIP, List.filter_cons, hs]

theorem countIP_le_one_of_ipOutside (steps : List PlanStep) :
    ∀ i k : Nat, ipOutside steps i k = 0 → countIP steps ≤ 1 := by
  induction steps with
  | nil => intro i k _; simp [countIP]
  | cons s rest ih =>
    intro i k h
    rw [ipOutside] at h
    by_cases hc : s.status = PlanStepStatus.in_progress ∧ i ≠ k
    · rw [if_pos hc] at h; omega
    · rw [if_neg hc] at h
      by_cases hs : s.status = PlanStepStatus.in_progress
      · have hik : i = k := by
          by_contra hne
          exact hc ⟨hs, hne⟩
        have hrest := ipOutside_eq_countIP rest (i + 1) k (by omega)
        have hcr : countIP rest = 0 := by rw [← hrest]; omega
        have hcons : countIP (s :: rest) = countIP rest + 1 := by
          simp [countIP, List.filter_cons, hs]
        omega
      · have hle := ih (i + 1) k (by omega)
        have hcons : countIP (s :: rest) = countIP rest := by
          simp [countIP, List.filter_cons, hs]
        omega

theorem ipOutside_of_countIP_zero (steps : List PlanStep) :
    ∀ i k : Nat, countIP steps = 0 → ipOutside steps i k = 0 := by
  induction steps with
  | nil => intro i k _; rfl
  | cons s rest ih =>
    intro i k h
    by_cases hs : s.status = PlanStepStatus.in_progress
    · simp [countIP, List.filter_cons, hs] at h
    · simp [countIP, List.filter_cons, hs] at h
      rw [ipOutside, if_neg (fun hc => hs hc.1), ih (i + 1) k (by simpa [countIP] using h)]

theorem updateStepsFrom_keeps_ipOutside (patch : StepPatch) (k : Nat)
    (steps : List PlanStep) :
    ∀ i : Nat, ipOutside steps i k = 0 →
      ipOutside (updateStepsFrom patch (k : Int) steps i) i k = 0 := by
  induction steps with
  | nil => intro i _; rfl
  | cons s rest ih =>
    intro i h
    rw [ipOutside] at h
    rw [updateStepsFrom]
    by_cases hik : i = k
    · rw [if_pos (by exact_mod_cast hik)]
      have htail : ipOutside rest (i + 1) k = 0 := by
        by_cases hc : s.status = PlanStepStatus.in_progress ∧ i ≠ k
        · exact (hc.2 hik).elim
        · rw [if_neg hc] at h; omega
      rw [ipOutside, if_neg (fun hc => hc.2 hik), ih (i + 1) htail]
    · rw [if_neg (fun hc => hik (by exact_mod_cast hc))]
      by_cases hc : s.status = PlanStepStatus.in_progress ∧ i ≠ k
      · rw [if_pos hc] at h; omega
      · rw [if_neg hc] at h
        rw [ipOutside, if_neg hc, ih (i + 1) (by omega)]

theorem updateStepsFrom_complete_countIP (patch : StepPatch)
    (hst : patch.status = some PlanStepStatus.completed) (k : Nat)
    (steps : List PlanStep) :
    ∀ i : Nat, ipOutside steps i k = 0 →
      countIP (updateStepsFrom patch (k : Int) steps i) = 0 := by
  induction steps with
  | nil => intro i _; rfl
  | cons s rest ih =>
    intro i h
    rw [ipOutside] at h
    rw [updateStepsFrom]
    by_cases hik : i = k
    · rw [if_pos (by exact_mod_cast hik)]
      have hms : (mergeStep s patch).status = PlanStepStatus.completed := by
        simp [mergeStep, hst]
      have htail : ipOutside rest (i + 1) k = 0 := by
        by_cases hc : s.status = PlanStepStatus.in_progress ∧ i ≠ k
        · exact (hc.2 hik).elim
        · rw [if_neg hc] at h; omega
      have hrest : updateStepsFrom patch (k : Int) rest (i + 1) = rest :=
        updateStepsFrom_out_of_range patch (k : Int) rest (i + 1)
          (Or.inl (by push_cast; omega))
      have hcr : countIP rest = 0 := by
        rw [← ipOutside_eq_countIP rest (i + 1) k (by omega)]
        exact htail
      rw [hrest]
      simp [countIP, List.filter_cons, hms]
      simpa [countIP] using hcr
    · rw [if_neg (fun hc => hik (by exact_mod_cast hc))]
      by_cases hc : s.status = PlanStepStatus.in_progress ∧ i ≠ k
      · rw [if_pos hc] at h; omega
      · rw [if_neg hc] at h
        have hs : ¬ s.status = PlanStepStatus.in_progress := fun hss => hc ⟨hss, hik⟩
        simp [countIP, List.filter_cons, hs]
        simpa [countIP] using ih (i + 1) (by omega)

theorem countIP_map_pending (l : List (Nat × Json)) :
    countIP (l.map (fun p =>
      ({ id := "step-" ++ toString p.1, index := p.1,
         title := jsFieldString p.2 "title",
         description := jsFieldString p.2 "description",
         status := PlanStepStatus.pending,
         startedAt := none, completedAt := none, output := none, error := none,
         retryCount := 0, maxRetries := 3 } : PlanStep))) = 0 := by
  induction l with
  | nil => rfl
  | cons a l ih => simpa [countIP, List.filter_cons] using ih

theorem countIP_buildSteps (items : List Json) : countIP (buildSteps items) = 0 := by
  rw [buildSteps]
  exact countIP_map_pending items.enum

theorem waitNode_keeps_index (s : GraphState) :
    (waitNode s).currentStepIndex = none := by
  cases hhi : s.humanInput with
  | none => simp [waitNode, hhi, emptyUpdate]
  | some hi =>
    cases hi with
    | approval approved => cases approved <;> simp [waitNode, hhi, emptyUpdate]
    | answer a => simp [waitNode, hhi, emptyUpdate]

theorem reviewNode_keeps (oracle : Oracle) (w : World) (o : NodeOut)
    (h : reviewNode oracle w = Except.ok o) :
    o.dbPlan = w.dbPlan ∧ o.update.currentStepIndex = none := by
  simp only [reviewNode] at h
  split at h
  · cases h; exact ⟨rfl, rfl⟩
  · split at h
    · split at h
      · cases h; exact ⟨rfl, rfl⟩
      · cases h; exact ⟨rfl, rfl⟩
    · cases h; exact ⟨rfl, rfl⟩

theorem planNode_inv (oracle : Oracle) (now : String) (w : World) (o : NodeOut)
    (hw : invC8 w = true) (h : planNode oracle now w = Except.ok o) :
    invStates o.dbPlan (o.update.currentStepIndex.getD w.state.currentStepIndex) = true := by
  simp only [planNode] at h
  split at h
  · cases h; exact hw
  · split at h
    · cases h
    · split at h
      · cases h
        simp [invStates, ipOutside_of_countIP_zero, countIP_buildSteps]
      · cases h

theorem start_write_inv (c : Prop) [Decidable c] (dbPlan : Option StructuredPlan)
    (idx : Nat) (patch : StepPatch) (db1 : Option StructuredPlan)
    (hw : invStates dbPlan idx = true)
    (h : (if c then markDb dbPlan idx patch else Except.ok dbPlan) = Except.ok db1) :
    invStates db1 idx = true := by
  split at h
  · rw [markDb.eq_def] at h
    split at h
    · cases h
    · cases h
      rename_i p
      simp only [invStates, decide_eq_true_eq] at hw ⊢
      rw [updateStepsAt]
      exact updateStepsFrom_keeps_ipOutside patch idx p.steps 0 hw
  · cases h
    exact hw

theorem complete_write_inv (db1 db2 : Option StructuredPlan) (idx : Nat)
    (patch : StepPatch) (hst : patch.status = some PlanStepStatus.completed)
    (hw : invStates db1 idx = true)
    (h : markDb db1 idx patch = Except.ok db2) :
    invStates db2 (idx + 1) = true := by
  rw [markDb.eq_def] at h
  split at h
  · cases h
  · cases h
    rename_i q
    simp only [invStates, decide_eq_true_eq] at hw ⊢
    rw [updateStepsAt]
    exact ipOutside_of_countIP_zero _ 0 (idx + 1)
      (updateStepsFrom_complete_countIP patch hst idx q.steps 0 hw)

theorem executeNode_inv (oracle : Oracle) (tools : List ToolSpec) (now : String)
    (w : World) (o : NodeOut) (hw : invC8 w = true)
    (h : executeNode oracle tools now w = Except.ok o) :
    invStates o.dbPlan (o.update.currentStepIndex.getD w.state.currentStepIndex) = true := by
  simp only [invC8] at hw
  simp only [executeNode] at h
  split at h
  · cases h; exact hw
  · split at h
    · cases h; exact hw
    · split at h
      · cases h
      · rename_i db1 heq1
        have hdb1 : invStates db1 w.state.currentStepIndex = true :=
          start_write_inv _ w.dbPlan w.state.currentStepIndex _ db1 hw heq1
        split at h
        · split at h
          · cases h
          · rename_i db2 heq2
            cases h
            exact complete_write_inv db1 db2 w.state.currentStepIndex _ rfl hdb1 heq2
        · cases h
          exact hdb1

theorem nodeStep_invC8 (oracle : Oracle) (tools : List ToolSpec) (now : String)
    (n : NodeId) (w w2 : World) (hw : invC8 w = true)
    (h : nodeStep oracle tools now n w = Except.ok w2) :
    invC8 w2 = true := by
  cases n with
  | planning =>
    simp only [nodeStep] at h
    rcases hpn : planNode oracle now w with e | o <;> rw [hpn] at h
    · cases h
    · cases h
      exact planNode_inv oracle now w o hw hpn
  | execute =>
    simp only [nodeStep] at h
    rcases hpn : executeNode oracle tools now w with e | o <;> rw [hpn] at h
    · cases h
    · cases h
      exact executeNode_inv oracle tools now w o hw hpn
  | review =>
    simp only [nodeStep] at h
    rcases hpn : reviewNode oracle w with e | o <;> rw [hpn] at h
    · cases h
    · cases h
      obtain ⟨h1, h2⟩ := reviewNode_keeps oracle w o hpn
      show invStates o.dbPlan (o.update.currentStepIndex.getD _) = true
      rw [h1, h2]
      exact hw
  | wait =>
    simp only [nodeStep] at h
    cases h
    show invStates w.dbPlan ((waitNode w.state).currentStepIndex.getD _) = true
    rw [waitNode_keeps_index]
    exact hw
  | done =>
    simp only [nodeStep] at h
    cases h
    exact hw

theorem driveAux_invC8 (oracle : Oracle) (tools : List ToolSpec) (now : String) :
    ∀ (fuel : Nat) (n : NodeId) (w : World) (wf : World) (nf : NodeId),
      invC8 w = true →
      (driveAux oracle tools now fuel n w).2 = Except.ok (wf, nf) →
      invC8 wf = true := by
  intro fuel
  induction fuel with
  | zero =>
    intro n w wf nf hw h
    rw [driveAux] at h
    simp only [Except.ok.injEq, Prod.mk.injEq] at h
    rw [← h.1]
    exact hw
  | succ f ih =>
    intro n w wf nf hw h
    rw [driveAux] at h
    by_cases hd : n = NodeId.done
    · rw [if_pos hd] at h
      simp only [Except.ok.injEq, Prod.mk.injEq] at h
      rw [← h.1]
      exact hw
    · rw [if_neg hd] at h
      rcases hns : nodeStep oracle tools now n w with e | w2 <;> rw [hns] at h
      · simp at h
      · have hw2 := nodeStep_invC8 oracle tools now n w w2 hw hns
        exact ih (routeAfterNode n w2.state) w2 wf nf hw2 h

/-- C8: at most one step per stored plan is in_progress at any time.
The strengthened invariant invC8 (any in_progress step sits at the
engine's current step index) is preserved by the in_progress write of the
execute step at the current index, by every node of the engine (the
statuses the engine writes: in_progress only at the current pending step,
completed before currentStepIndex advances, and full-plan resets to all
pending), and by every driver run; it bounds the stored plan's
in_progress count by one. -/
theorem single_in_progress_invariant (oracle : Oracle) (tools : List ToolSpec)
    (now : String) :
    (∀ (steps : List PlanStep) (k : Nat) (patch : StepPatch),
      ipOutside steps 0 k = 0 →
      ipOutside (updateStepsAt steps (k : Int) patch) 0 k = 0) ∧
    (∀ n w w2, invC8 w = true → nodeStep oracle tools now n w = Except.ok w2 →
      invC8 w2 = true ∧ countIPw w2 ≤ 1) ∧
    (∀ fuel n w wf nf, invC8 w = true →
      (driveAux oracle tools now fuel n w).2 = Except.ok (wf, nf) →
      invC8 wf = true ∧ countIPw wf ≤ 1) := by
  have hcount : ∀ w : World, invC8 w = true → countIPw w ≤ 1 := by
    intro w hw
    simp only [invC8] at hw
    cases hdb : w.dbPlan with
    | none => simp [countIPw, hdb]
    | some p =>
      rw [hdb] at hw
      simp only [invStates, decide_eq_true_eq] at hw
      simp only [countIPw, hdb]
      exact countIP_le_one_of_ipOutside p.steps 0 w.state.currentStepIndex hw
  refine ⟨?_, ?_, ?_⟩
  · intro steps k patch h
    rw [updateStepsAt]
    exact updateStepsFrom_keeps_ipOutside patch k steps 0 h
  · intro n w w2 hw h
    have hinv := nodeStep_invC8 oracle tools now n w w2 hw h
    exact ⟨hinv, hcount w2 hinv⟩
  · intro fuel n w wf nf hw h
    have hinv := driveAux_invC8 oracle tools now fuel n w wf nf hw h
    exact ⟨hinv, hcount wf hinv⟩

/-- C8 witness: a concrete world with a one-step pending plan; the wait
node with no input returns it unchanged, preserving the invariant. -/
theorem single_in_progress_invariant_witness :
    invC8 exExecWorld = true ∧
    (∃ w2, nodeStep oracle0 [] "t0" NodeId.wait exExecWorld = Except.ok w2 ∧
      invC8 w2 = true ∧ countIPw w2 ≤ 1) :=
  ⟨by decide,
   ⟨_, rfl, (single_in_progress_invariant oracle0 [] "t0").2.1 NodeId.wait exExecWorld _
      (by decide) rfl⟩⟩
